import Mathlib

/-!
# TransactionAnalyzer (src/main.js)

A shallow embedding of the class `TransactionAnalyzer` of `src/main.js`.

* The array `this.transactions` is a `List Transaction`, in store order.
* `transaction_amount` holds the number that `parseFloat(transaction.transaction_amount)`
  yields; sums and quotients are taken in exact rational arithmetic.
* `transaction_date` holds the object `new Date(transaction.transaction_date)` as seen through
  `getFullYear`, `getMonth` and `getDate`; an unparseable text gives `JSDate.invalid`, whose
  getters return `NaN`. The getters report local time, while a date text "YYYY-MM-DD" is
  read as midnight UTC: `newDate` gives the day the getters report for a written day in a
  given time zone, the written day itself at or east of UTC and the day before west of UTC.
  `scenarioStore` is the scenario as seen at or east of UTC, `scenarioStoreIn` as seen in any
  zone.
* A JavaScript number that is an integer or `NaN` is an `Option Int`, `none` being `NaN`;
  an optional argument is an `Option`, `none` being `undefined`.
* Dates are compared through their time value, that of the midnight that starts the day, as
  the date text "YYYY-MM-DD" gives it.
* `addTransaction` returns the object after the call; `perform` runs one call of any method
  and gives the object after it together with the value returned.
-/

namespace JsLab

/-! ## Data model -/

/-- The object built by `new Date(text)`: either `Invalid Date` or a calendar day, with the
month counted from 0 as `getMonth` does. -/
inductive JSDate where
  | invalid : JSDate
  | ymd (year : Int) (month : Nat) (date : Nat) : JSDate
deriving DecidableEq, Repr

namespace JSDate

/-- The getter `Date.prototype.getFullYear`; `none` is `NaN`. -/
def getFullYear : JSDate → Option Int
  | invalid => none
  | ymd y _ _ => some y

/-- The getter `Date.prototype.getMonth` (January is 0); `none` is `NaN`. -/
def getMonth : JSDate → Option Int
  | invalid => none
  | ymd _ m _ => some (Int.ofNat m)

/-- The getter `Date.prototype.getDate` (day of the month); `none` is `NaN`. -/
def getDate : JSDate → Option Int
  | invalid => none
  | ymd _ _ d => some (Int.ofNat d)

/-- A date as the documented text format "YYYY-MM-DD" gives it: a year that is not negative,
a month index 0..11 and a day 1..31. -/
def isValid : JSDate → Bool
  | invalid => false
  | ymd y m d => decide (0 ≤ y) && decide (m < 12) && decide (1 ≤ d) && decide (d ≤ 31)

end JSDate

/-- One record of the store, with the seven fields of `transactions.json`. -/
structure Transaction where
  transaction_id : String
  transaction_date : JSDate
  transaction_amount : ℚ
  transaction_type : String
  transaction_description : String
  merchant_name : String
  card_type : String
deriving DecidableEq

/-- The class `TransactionAnalyzer`: its only field is the array `transactions`. -/
structure TransactionAnalyzer where
  transactions : List Transaction
deriving DecidableEq

/-! ## JavaScript primitives used by the methods -/

/-- The sum `a + b` on numbers that are integers or `NaN`. -/
def jsAdd (a : Option Int) (b : Int) : Option Int :=
  a.map (fun x => x + b)

/-- The difference `a - b` on numbers that are integers or `NaN`. -/
def jsSub (a : Option Int) (b : Int) : Option Int :=
  a.map (fun x => x - b)

/-- The test `a === b` for a number `a` that may be `NaN` and an integer `b`: `NaN` equals nothing. -/
def jsStrictEq (a : Option Int) (b : Int) : Bool :=
  match a with
  | none => false
  | some x => decide (x = b)

/-- The quotient `a / b` on finite numbers: the quotient, or `none` when the divisor is 0, where JavaScript
gives `NaN` (0 / 0) or an infinity. -/
def jsDivide (a b : ℚ) : Option ℚ :=
  if b = 0 then none else some (a / b)

/-- The callback `(acc, curr) => acc + parseFloat(curr.transaction_amount)` of the `reduce`s. -/
def addAmount (acc : ℚ) (curr : Transaction) : ℚ :=
  acc + curr.transaction_amount

namespace TransactionAnalyzer

/-! ## Sums and averages -/

/-- Method `calculateTotalAmount()` (main.js 52-58): `forEach` adding each amount to `totalAmount`,
which starts at 0. -/
def calculateTotalAmount (self : TransactionAnalyzer) : ℚ :=
  self.transactions.foldl (fun totalAmount transaction =>
    totalAmount + transaction.transaction_amount) 0

/-- Method `calculateTotalAmountByDate(year, month, day)` (main.js 69-106): the chain of four
branches, tested in this order. -/
def calculateTotalAmountByDate (self : TransactionAnalyzer)
    (year month day : Option Int) : ℚ :=
  match year, month, day with
  | some y, some m, some d =>
    (self.transactions.filter (fun transaction =>
        jsStrictEq transaction.transaction_date.getFullYear y &&
        jsStrictEq (jsAdd transaction.transaction_date.getMonth 1) m &&
        jsStrictEq transaction.transaction_date.getDate d)).foldl addAmount 0
  | some y, some m, none =>
    (self.transactions.filter (fun transaction =>
        jsStrictEq transaction.transaction_date.getFullYear y &&
        jsStrictEq (jsAdd transaction.transaction_date.getMonth 1) m)).foldl addAmount 0
  | some y, none, _ =>
    (self.transactions.filter (fun transaction =>
        jsStrictEq transaction.transaction_date.getFullYear y)).foldl addAmount 0
  | none, _, _ =>
    self.transactions.foldl addAmount 0

/-- Method `calculateAverageTransactionAmount()` (main.js 154-166). -/
def calculateAverageTransactionAmount (self : TransactionAnalyzer) : Option ℚ :=
  if self.transactions.length = 0 then
    some 0
  else
    let totalAmount := self.transactions.foldl addAmount 0
    jsDivide totalAmount (self.transactions.length : ℚ)

/-- Method `calculateTotalDebitAmount()` (main.js 187-194). -/
def calculateTotalDebitAmount (self : TransactionAnalyzer) : ℚ :=
  (self.transactions.filter (fun transaction =>
      decide (transaction.transaction_type = "debit"))).foldl addAmount 0

end TransactionAnalyzer

/-! ## Specification-side definitions -/

/-- The sum of the amounts of the transactions of `ts` that satisfy `p`, as a plain sum. -/
def sumOfAmountsWhere (p : Transaction → Bool) (ts : List Transaction) : ℚ :=
  ((ts.filter p).map (fun t => t.transaction_amount)).sum

/-- The transaction is dated year `y`. -/
def inYear (y : Int) (t : Transaction) : Bool :=
  match t.transaction_date with
  | JSDate.invalid => false
  | JSDate.ymd y' _ _ => decide (y' = y)

/-- The transaction is dated year `y`, month `m` (January is 1). -/
def inYearMonth (y m : Int) (t : Transaction) : Bool :=
  match t.transaction_date with
  | JSDate.invalid => false
  | JSDate.ymd y' m' _ => decide (y' = y) && decide ((m' : Int) + 1 = m)

/-- The transaction is dated exactly year `y`, month `m` (January is 1), day `d`. -/
def onDay (y m d : Int) (t : Transaction) : Bool :=
  match t.transaction_date with
  | JSDate.invalid => false
  | JSDate.ymd y' m' d' => decide (y' = y) && decide ((m' : Int) + 1 = m) && decide ((d' : Int) = d)

/-- The transaction is dated month `m` (January is 1) of any year. -/
def inMonth (m : Int) (t : Transaction) : Bool :=
  match t.transaction_date with
  | JSDate.invalid => false
  | JSDate.ymd _ m' _ => decide ((m' : Int) + 1 = m)

/-- The transaction is dated year `y`, day `d` of any month. -/
def inYearOnDayOfMonth (y d : Int) (t : Transaction) : Bool :=
  match t.transaction_date with
  | JSDate.invalid => false
  | JSDate.ymd y' _ d' => decide (y' = y) && decide ((d' : Int) = d)

/-- The two transactions are dated the same month of the same year. -/
def sameYearMonth (t u : Transaction) : Bool :=
  match t.transaction_date, u.transaction_date with
  | JSDate.ymd y m _, JSDate.ymd y' m' _ => decide (y = y') && decide (m = m')
  | _, _ => false

/-- The number of transactions of `ts` in the (year, month) group of `t`. -/
def groupSize (ts : List Transaction) (t : Transaction) : Nat :=
  ts.countP (fun u => sameYearMonth t u)

/-- The number that a sequence of decimal digit characters denotes. -/
def decimalValue (cs : List Char) : Nat :=
  cs.foldl (fun acc c => acc * 10 + (c.toNat - '0'.toNat)) 0

/-- The number of transactions of `ts` whose type is exactly `type`. -/
def numberOfType (type : String) (ts : List Transaction) : Nat :=
  ts.countP (fun t => decide (t.transaction_type = type))

/-- A record with the given date, amount and type, the other fields as in the example
transaction of main.js. -/
def mkTransaction (date : JSDate) (amount : ℚ) (type : String) : Transaction :=
  { transaction_id := "1"
    transaction_date := date
    transaction_amount := amount
    transaction_type := type
    transaction_description := "Refund for returned item"
    merchant_name := "OnlineStore"
    card_type := "Mastercard" }

/-- The store of the scenario, 2023-01-15 (100, debit), 2023-01-20 (50, credit),
2023-02-01 (200, debit), with the dates as the getters report them in a time zone at or east
of UTC, where they are the written days (see `scenarioStoreIn` for the other zones). -/
def scenarioStore : TransactionAnalyzer :=
  ⟨[mkTransaction (JSDate.ymd 2023 0 15) 100 "debit",
    mkTransaction (JSDate.ymd 2023 0 20) 50 "credit",
    mkTransaction (JSDate.ymd 2023 1 1) 200 "debit"]⟩

/-- A store whose amounts are 10, 20 and 30. -/
def store102030 : TransactionAnalyzer :=
  ⟨[mkTransaction (JSDate.ymd 2022 2 24) 10 "credit",
    mkTransaction (JSDate.ymd 2022 2 25) 20 "debit",
    mkTransaction (JSDate.ymd 2022 3 1) 30 "credit"]⟩

/-- A store with no debit: two credits and a transfer. -/
def noDebitStore : TransactionAnalyzer :=
  ⟨[mkTransaction (JSDate.ymd 2023 0 15) 100 "credit",
    mkTransaction (JSDate.ymd 2023 0 20) 50 "credit",
    mkTransaction (JSDate.ymd 2023 1 1) 200 "transfer"]⟩

/-! ## Strings, objects and the month tables -/

/-- A number placed in a template literal: decimal digits, a leading minus sign for a
negative integer, and the text NaN for `NaN`. -/
def jsNumberToString : Option Int → String
  | none => "NaN"
  | some (Int.ofNat n) => String.mk (Nat.toDigits 10 n)
  | some (Int.negSucc n) => String.mk ('-' :: Nat.toDigits 10 (n + 1))

/-- The pieces of a character sequence between the occurrences of `sep`. -/
def splitChars (sep : Char) : List Char → List (List Char)
  | [] => [[]]
  | c :: cs =>
    if c = sep then [] :: splitChars sep cs
    else
      match splitChars sep cs with
      | [] => [[c]]
      | piece :: pieces => (c :: piece) :: pieces

/-- The call `s.split(sep)` for a one-character separator. -/
def jsSplit (s : String) (sep : Char) : List String :=
  (splitChars sep s.data).map String.mk

/-- The value of a character as a digit in the given radix, if it is one. -/
def digitOf (radix : Nat) (c : Char) : Option Nat :=
  let v : Option Nat :=
    if '0' ≤ c ∧ c ≤ '9' then some (c.toNat - '0'.toNat)
    else if 'a' ≤ c ∧ c ≤ 'z' then some (c.toNat - 'a'.toNat + 10)
    else if 'A' ≤ c ∧ c ≤ 'Z' then some (c.toNat - 'A'.toNat + 10)
    else none
  v.filter (fun d => decide (d < radix))

/-- The values of the longest run of digits at the head of a character sequence. -/
def leadingDigits (radix : Nat) : List Char → List Nat
  | [] => []
  | c :: cs =>
    match digitOf radix c with
    | some d => d :: leadingDigits radix cs
    | none => []

/-- The number a run of digit values denotes, or `NaN` for the empty run. -/
def digitsValue (radix : Nat) (ds : List Nat) : Option Int :=
  if ds = [] then none
  else some (Int.ofNat (ds.foldl (fun acc d => acc * radix + d) 0))

/-- The white space that `parseInt` skips at the head of its argument: space, tab, line feed
and carriage return. -/
def isWhiteSpace (c : Char) : Bool :=
  c = ' ' || c = '\t' || c = '\n' || c = '\r'

/-- The call `parseInt(x)` without a radix; `none` as argument is `undefined`, which is read as the
text undefined, and `none` as result is `NaN`. Leading white space is dropped, a sign is
read, a 0x or 0X mark selects radix 16, and the longest run of digits is the value. -/
def jsParseInt (x : Option String) : Option Int :=
  let text : List Char :=
    match x with
    | none => "undefined".data
    | some s => s.data
  let trimmed := text.dropWhile isWhiteSpace
  let signed : Int × List Char :=
    match trimmed with
    | '-' :: rest => (-1, rest)
    | '+' :: rest => (1, rest)
    | rest => (1, rest)
  let value : Option Int :=
    match signed.2 with
    | '0' :: 'x' :: rest => digitsValue 16 (leadingDigits 16 rest)
    | '0' :: 'X' :: rest => digitsValue 16 (leadingDigits 16 rest)
    | rest => digitsValue 10 (leadingDigits 10 rest)
  value.map (fun v => signed.1 * v)

/-- The element `arr[i]` for a number `i` that is an integer or `NaN`: outside `0 .. arr.length - 1` the
element is `undefined`. -/
def jsIndex (arr : List String) (i : Option Int) : Option String :=
  match i with
  | none => none
  | some (Int.ofNat n) => arr[n]?
  | some (Int.negSucc _) => none

/-- The read `obj[key]` on an object whose own properties are listed in creation order; `none` is
`undefined`. -/
def objGet : List (String × Nat) → String → Option Nat
  | [], _ => none
  | (k, v) :: rest, key => if k = key then some v else objGet rest key

/-- The write `obj[key] = value`: an existing property keeps its place, a new one is created last. -/
def objSet : List (String × Nat) → String → Nat → List (String × Nat)
  | [], key, value => [(key, value)]
  | (k, v) :: rest, key, value =>
    if k = key then (k, value) :: rest else (k, v) :: objSet rest key value

/-- The template literal of main.js 207 and 245: year, a minus sign, month number. -/
def monthKey (transactionDate : JSDate) : String :=
  jsNumberToString transactionDate.getFullYear ++ "-" ++
    jsNumberToString (jsAdd transactionDate.getMonth 1)

/-- The body of the `forEach` of main.js 205-213: count the transaction under its key. -/
def countByMonth (transactionsByMonth : List (String × Nat)) (transaction : Transaction) :
    List (String × Nat) :=
  let key := monthKey transaction.transaction_date
  match objGet transactionsByMonth key with
  | none => objSet transactionsByMonth key 1
  | some n => objSet transactionsByMonth key (n + 1)

/-- The body of the `forEach` of main.js 242-252: as `countByMonth`, for debits only. -/
def countDebitByMonth (debitTransactionsByMonth : List (String × Nat))
    (transaction : Transaction) : List (String × Nat) :=
  if transaction.transaction_type = "debit" then
    countByMonth debitTransactionsByMonth transaction
  else
    debitTransactionsByMonth

/-- The `for ... in` loops of main.js 216-223 and 255-262, run over the properties in
creation order (no key is an array index, each holding a minus sign): the pair
`(maxMonth, maxTransactions)`, which starts as the empty text and 0. -/
def maxMonthLoop (transactionsByMonth : List (String × Nat)) : String × Nat :=
  transactionsByMonth.foldl
    (fun acc entry => if entry.2 > acc.2 then (entry.1, entry.2) else acc) ("", 0)

/-- The table `monthNames` of main.js 227 and 266. -/
def monthNames : List String :=
  ["Январь", "Февраль", "Март", "Апрель", "Май", "Июнь", "Июль", "Август", "Сентябрь",
   "Октябрь", "Ноябрь", "Декабрь"]

/-- Lines 226-230 and 265-269 of main.js: split the key at the minus signs, take the second
piece as `month`, and look `parseInt(month) - 1` up in `monthNames`; `none` is `undefined`. -/
def monthNameOfKey (maxMonth : String) : Option String :=
  let parts := jsSplit maxMonth '-'
  let month := parts[1]?
  jsIndex monthNames (jsSub (jsParseInt month) 1)

namespace TransactionAnalyzer

/-- Method `findMostTransactionsMonth()` (main.js 200-231); `none` is `undefined`. -/
def findMostTransactionsMonth (self : TransactionAnalyzer) : Option String :=
  let transactionsByMonth := self.transactions.foldl countByMonth []
  let maxMonth := (maxMonthLoop transactionsByMonth).1
  monthNameOfKey maxMonth

/-- Method `findMostDebitTransactionMonth()` (main.js 237-270); `none` is `undefined`. -/
def findMostDebitTransactionMonth (self : TransactionAnalyzer) : Option String :=
  let debitTransactionsByMonth := self.transactions.foldl countDebitByMonth []
  let maxMonth := (maxMonthLoop debitTransactionsByMonth).1
  monthNameOfKey maxMonth

/-- The body of the `forEach` of main.js 281-287 on the pair `(debitCount, creditCount)`. -/
def countType (counts : Nat × Nat) (transaction : Transaction) : Nat × Nat :=
  if transaction.transaction_type = "debit" then (counts.1 + 1, counts.2)
  else if transaction.transaction_type = "credit" then (counts.1, counts.2 + 1)
  else counts

/-- Method `mostTransactionTypes()` (main.js 276-297). -/
def mostTransactionTypes (self : TransactionAnalyzer) : String :=
  let counts := self.transactions.foldl countType (0, 0)
  let debitCount := counts.1
  let creditCount := counts.2
  if debitCount > creditCount then "debit"
  else if creditCount > debitCount then "credit"
  else "equal"

end TransactionAnalyzer

/-! ## Time values and date comparison -/

/-- The day number of 1 January of year `y`, counted from 1 January 1970
(`DayFromYear` of the language standard); the divisions round down. -/
def dayFromYear (y : Int) : Int :=
  365 * (y - 1970) + (y - 1969) / 4 - (y - 1901) / 100 + (y - 1601) / 400

/-- Leap years of the Gregorian calendar. -/
def isLeapYear (y : Int) : Bool :=
  decide (y % 4 = 0) && (decide (y % 100 ≠ 0) || decide (y % 400 = 0))

/-- The number of days of the year before the first day of month `m` (January is 0). -/
def dayWithinYear (leap : Bool) (m : Nat) : Int :=
  let leapDay : Int := if leap then 1 else 0
  match m with
  | 0 => 0
  | 1 => 31
  | 2 => 59 + leapDay
  | 3 => 90 + leapDay
  | 4 => 120 + leapDay
  | 5 => 151 + leapDay
  | 6 => 181 + leapDay
  | 7 => 212 + leapDay
  | 8 => 243 + leapDay
  | 9 => 273 + leapDay
  | 10 => 304 + leapDay
  | _ => 334 + leapDay

/-- The day number of a calendar day, counted from 1 January 1970 (`MakeDay` of the language
standard): a month index of 12 or more runs into the following years. -/
def makeDay (year : Int) (month date : Nat) : Int :=
  let ym := year + Int.ofNat (month / 12)
  let mn := month % 12
  dayFromYear ym + dayWithinYear (isLeapYear ym) mn + Int.ofNat date - 1

/-- Milliseconds in a day. -/
def msPerDay : Int := 86400000

/-- The time value of a `Date`, which `>=`, `<=` and `<` compare: milliseconds since
1 January 1970 for the midnight that starts the day, `none` (`NaN`) for `Invalid Date`. -/
def JSDate.getTime : JSDate → Option Int
  | JSDate.invalid => none
  | JSDate.ymd y m d => some (makeDay y m d * msPerDay)

/-- The test `a >= b` on numbers that may be `NaN`: false when either is `NaN`. -/
def jsGe (a b : Option Int) : Bool :=
  match a, b with
  | some x, some y => decide (x ≥ y)
  | _, _ => false

/-- The test `a <= b` on numbers that may be `NaN`: false when either is `NaN`. -/
def jsLe (a b : Option Int) : Bool :=
  match a, b with
  | some x, some y => decide (x ≤ y)
  | _, _ => false

/-- The test `a < b` on numbers that may be `NaN`: false when either is `NaN`. -/
def jsLt (a b : Option Int) : Bool :=
  match a, b with
  | some x, some y => decide (x < y)
  | _, _ => false

/-- The call `arr.find(callback)`: the first element that passes, `none` (`undefined`) when
there is none. -/
def jsFind (arr : List Transaction) (callback : Transaction → Bool) : Option Transaction :=
  match arr with
  | [] => none
  | x :: rest => if callback x then some x else jsFind rest callback

/-- The call `set.add(value)` on a `Set` whose elements are listed in insertion order. -/
def setAdd (set : List String) (value : String) : List String :=
  if value ∈ set then set else set ++ [value]

namespace TransactionAnalyzer

/-! ## Store access, filters and look-ups -/

/-- Method `addTransaction(transaction)` (main.js 19-21): `push` puts the transaction at the
end of the array; the result is the object after the call. -/
def addTransaction (self : TransactionAnalyzer) (transaction : Transaction) :
    TransactionAnalyzer :=
  { transactions := self.transactions ++ [transaction] }

/-- Method `getAllTransactions()` (main.js 27-29). -/
def getAllTransactions (self : TransactionAnalyzer) : List Transaction :=
  self.transactions

/-- Method `getUniqueTransactionType()` (main.js 35-46): the types are added to a `Set` in
store order, and `Array.from` lists the set in insertion order. -/
def getUniqueTransactionType (self : TransactionAnalyzer) : List String :=
  let transactionTypes := self.transactions.foldl
    (fun transactionTypes transaction => setAdd transactionTypes transaction.transaction_type)
    []
  transactionTypes

/-- Method `getTransactionByType(type)` (main.js 113-117). -/
def getTransactionByType (self : TransactionAnalyzer) (type : String) : List Transaction :=
  self.transactions.filter (fun transaction => decide (transaction.transaction_type = type))

/-- Method `getTransactionsInDateRange(startDate, endDate)` (main.js 125-137); the arguments
are given as the objects `new Date(startDate)` and `new Date(endDate)`. -/
def getTransactionsInDateRange (self : TransactionAnalyzer) (startDateObj endDateObj : JSDate) :
    List Transaction :=
  self.transactions.filter (fun transaction =>
    jsGe transaction.transaction_date.getTime startDateObj.getTime &&
    jsLe transaction.transaction_date.getTime endDateObj.getTime)

/-- Method `getTransactionsByMerchant(merchantName)` (main.js 144-148). -/
def getTransactionsByMerchant (self : TransactionAnalyzer) (merchantName : String) :
    List Transaction :=
  self.transactions.filter (fun transaction => decide (transaction.merchant_name = merchantName))

/-- Method `getTransactionsByAmountRange(minAmount, maxAmount)` (main.js 174-181). -/
def getTransactionsByAmountRange (self : TransactionAnalyzer) (minAmount maxAmount : ℚ) :
    List Transaction :=
  self.transactions.filter (fun transaction =>
    let transactionAmount := transaction.transaction_amount
    decide (transactionAmount ≥ minAmount) && decide (transactionAmount ≤ maxAmount))

/-- Method `getTransactionsBeforeDate(date)` (main.js 304-315); the argument is given as the
object `new Date(date)`. -/
def getTransactionsBeforeDate (self : TransactionAnalyzer) (targetDate : JSDate) :
    List Transaction :=
  self.transactions.filter (fun transaction =>
    jsLt transaction.transaction_date.getTime targetDate.getTime)

/-- Method `findTransactionById(id)` (main.js 322-327); `none` is `null`. A found transaction
is an object, hence truthy, and `||` returns it; `undefined` is falsy and `||` returns
`null`. -/
def findTransactionById (self : TransactionAnalyzer) (id : String) : Option Transaction :=
  let foundTransaction :=
    jsFind self.transactions (fun transaction => decide (transaction.transaction_id = id))
  match foundTransaction with
  | some transaction => some transaction
  | none => none

/-- Method `mapTransactionDescriptions()` (main.js 333-338). -/
def mapTransactionDescriptions (self : TransactionAnalyzer) : List String :=
  self.transactions.map (fun transaction => transaction.transaction_description)

end TransactionAnalyzer

/-! ## The class as a state machine -/

/-- A call of one of the seventeen methods of the class, with its arguments. -/
inductive Call where
  | addTransaction (transaction : Transaction)
  | getAllTransactions
  | getUniqueTransactionType
  | calculateTotalAmount
  | calculateTotalAmountByDate (year month day : Option Int)
  | getTransactionByType (type : String)
  | getTransactionsInDateRange (startDate endDate : JSDate)
  | getTransactionsByMerchant (merchantName : String)
  | calculateAverageTransactionAmount
  | getTransactionsByAmountRange (minAmount maxAmount : ℚ)
  | calculateTotalDebitAmount
  | findMostTransactionsMonth
  | findMostDebitTransactionMonth
  | mostTransactionTypes
  | getTransactionsBeforeDate (date : JSDate)
  | findTransactionById (id : String)
  | mapTransactionDescriptions

/-- What a call returns. -/
inductive Returned where
  | undefined
  | transactions (value : List Transaction)
  | strings (value : List String)
  | amount (value : ℚ)
  | quotient (value : Option ℚ)
  | text (value : String)
  | textOrUndefined (value : Option String)
  | transactionOrNull (value : Option Transaction)

/-- One call on the object: the object after the call and the value returned. Only
`addTransaction` assigns to or mutates `this.transactions`; the other methods read it with
`forEach`, `filter`, `reduce`, `find` and `map`. -/
def perform (self : TransactionAnalyzer) : Call → TransactionAnalyzer × Returned
  | Call.addTransaction transaction => (self.addTransaction transaction, Returned.undefined)
  | Call.getAllTransactions => (self, Returned.transactions self.getAllTransactions)
  | Call.getUniqueTransactionType => (self, Returned.strings self.getUniqueTransactionType)
  | Call.calculateTotalAmount => (self, Returned.amount self.calculateTotalAmount)
  | Call.calculateTotalAmountByDate year month day =>
    (self, Returned.amount (self.calculateTotalAmountByDate year month day))
  | Call.getTransactionByType type =>
    (self, Returned.transactions (self.getTransactionByType type))
  | Call.getTransactionsInDateRange startDate endDate =>
    (self, Returned.transactions (self.getTransactionsInDateRange startDate endDate))
  | Call.getTransactionsByMerchant merchantName =>
    (self, Returned.transactions (self.getTransactionsByMerchant merchantName))
  | Call.calculateAverageTransactionAmount =>
    (self, Returned.quotient self.calculateAverageTransactionAmount)
  | Call.getTransactionsByAmountRange minAmount maxAmount =>
    (self, Returned.transactions (self.getTransactionsByAmountRange minAmount maxAmount))
  | Call.calculateTotalDebitAmount => (self, Returned.amount self.calculateTotalDebitAmount)
  | Call.findMostTransactionsMonth =>
    (self, Returned.textOrUndefined self.findMostTransactionsMonth)
  | Call.findMostDebitTransactionMonth =>
    (self, Returned.textOrUndefined self.findMostDebitTransactionMonth)
  | Call.mostTransactionTypes => (self, Returned.text self.mostTransactionTypes)
  | Call.getTransactionsBeforeDate date =>
    (self, Returned.transactions (self.getTransactionsBeforeDate date))
  | Call.findTransactionById id =>
    (self, Returned.transactionOrNull (self.findTransactionById id))
  | Call.mapTransactionDescriptions =>
    (self, Returned.strings self.mapTransactionDescriptions)

/-- The object after a sequence of calls, made one after the other. -/
def performAll (self : TransactionAnalyzer) (calls : List Call) : TransactionAnalyzer :=
  calls.foldl (fun object call => (perform object call).1) self

/-! ## Specification-side definitions for the look-ups -/

/-- Chronological order of two dates, bounds included: both are real dates and the first is
not after the second. -/
def notAfter (a b : JSDate) : Bool :=
  match a.getTime, b.getTime with
  | some x, some y => decide (x ≤ y)
  | _, _ => false

/-- The length of month `m` (January is 0). -/
def daysInMonth (leap : Bool) (m : Nat) : Nat :=
  match m with
  | 1 => if leap then 29 else 28
  | 3 => 30
  | 5 => 30
  | 8 => 30
  | 10 => 30
  | _ => 31

/-- A day of the Gregorian calendar: a month index 0..11 and a day of that month. -/
def isCalendarDay : JSDate → Bool
  | JSDate.invalid => false
  | JSDate.ymd y m d =>
    decide (m < 12) && decide (1 ≤ d) && decide (d ≤ daysInMonth (isLeapYear y) m)

/-- The order of the calendar, bounds included: earlier year, or same year and earlier month,
or same year and month and a day that is not later. -/
def calendarNotAfter (a b : JSDate) : Bool :=
  match a, b with
  | JSDate.ymd y m d, JSDate.ymd y' m' d' =>
    decide (y < y') || (decide (y = y') && (decide (m < m') ||
      (decide (m = m') && decide (d ≤ d'))))
  | _, _ => false

/-- A store in which the identifier "3" occurs twice and "7" never. -/
def idStore : TransactionAnalyzer :=
  ⟨[{ mkTransaction (JSDate.ymd 2023 0 15) 100 "debit" with transaction_id := "1" },
    { mkTransaction (JSDate.ymd 2023 0 20) 50 "credit" with transaction_id := "3" },
    { mkTransaction (JSDate.ymd 2023 1 1) 200 "debit" with transaction_id := "3" }]⟩

/-! ## Time zones and the stores of the failing inputs -/

/-- The day before a calendar day. -/
def previousDay : JSDate → JSDate
  | JSDate.invalid => JSDate.invalid
  | JSDate.ymd y m d =>
    if 1 < d then JSDate.ymd y m (d - 1)
    else if 0 < m then JSDate.ymd y (m - 1) (daysInMonth (isLeapYear y) (m - 1))
    else JSDate.ymd (y - 1) 11 31

/-- The object `new Date(text)` for a date text "YYYY-MM-DD" that names the day `written`, as
`getFullYear`, `getMonth` and `getDate` report it in a time zone whose local time is UTC plus
`offsetMinutes` (between -1440 and 1440, negative west of UTC). The text is read as midnight
UTC; at or east of UTC that instant falls on the written day, west of UTC on the evening of
the day before. -/
def newDate (offsetMinutes : Int) (written : JSDate) : JSDate :=
  if offsetMinutes < 0 then previousDay written else written

/-- The store of the scenario, built from the date texts 2023-01-15, 2023-01-20 and
2023-02-01, as the methods see it when the process runs in the given time zone. -/
def scenarioStoreIn (offsetMinutes : Int) : TransactionAnalyzer :=
  ⟨[mkTransaction (newDate offsetMinutes (JSDate.ymd 2023 0 15)) 100 "debit",
    mkTransaction (newDate offsetMinutes (JSDate.ymd 2023 0 20)) 50 "credit",
    mkTransaction (newDate offsetMinutes (JSDate.ymd 2023 1 1)) 200 "debit"]⟩

/-- A store of one transaction, dated 1 May of the year -1 (date text -000001-05-01). -/
def yearMinus1Store : TransactionAnalyzer :=
  ⟨[mkTransaction (JSDate.ymd (-1) 4 1) 100 "debit"]⟩

/-- A store of one transaction, dated 1 May of the year -13 (date text -000013-05-01). -/
def yearMinus13Store : TransactionAnalyzer :=
  ⟨[mkTransaction (JSDate.ymd (-13) 4 1) 100 "debit"]⟩

/-- Count one more occurrence of `key` in the object, as the loop bodies of main.js 208-212
and 246-250 do. -/
def tallyKey (obj : List (String × Nat)) (key : String) : List (String × Nat) :=
  match objGet obj key with
  | none => objSet obj key 1
  | some n => objSet obj key (n + 1)

/-! ## Theorems -/

open TransactionAnalyzer

/-! ### Sums -/

theorem foldl_addAmount_eq (ts : List Transaction) (a : ℚ) :
    ts.foldl addAmount a = a + (ts.map (fun t => t.transaction_amount)).sum := by
  induction ts generalizing a with
  | nil => simp
  | cons t ts ih => simp [List.foldl_cons, ih, addAmount, add_assoc]

theorem reduce_filter_eq (p : Transaction → Bool) (ts : List Transaction) :
    (ts.filter p).foldl addAmount 0 = sumOfAmountsWhere p ts := by
  simp [foldl_addAmount_eq, sumOfAmountsWhere]

theorem calculateTotalAmount_eq_sum (self : TransactionAnalyzer) :
    self.calculateTotalAmount = (self.transactions.map (fun t => t.transaction_amount)).sum := by
  have h := foldl_addAmount_eq self.transactions 0
  simp only [zero_add] at h
  exact h

theorem sum_filter_le_sum (p : Transaction → Bool) (ts : List Transaction)
    (h : ∀ t ∈ ts, 0 ≤ t.transaction_amount) :
    ((ts.filter p).map (fun t => t.transaction_amount)).sum ≤
      (ts.map (fun t => t.transaction_amount)).sum := by
  induction ts with
  | nil => simp
  | cons t ts ih =>
    have ht : 0 ≤ t.transaction_amount := h t (List.mem_cons_self t ts)
    have ih' := ih (fun u hu => h u (List.mem_cons_of_mem t hu))
    by_cases hp : p t = true
    · simp only [List.filter_cons, hp, if_true, List.map_cons, List.sum_cons]
      linarith
    · simp only [List.filter_cons, hp, List.map_cons, List.sum_cons]
      simp only [Bool.false_eq_true, if_false]
      linarith

/-- C1: `calculateAverageTransactionAmount` returns 0 on the empty store; on any other store
the divisor, the number of transactions, is not zero and the result is the sum of all amounts
divided by that number, a finite value. -/
theorem calculateAverageTransactionAmount_spec (self : TransactionAnalyzer) :
    (self.transactions = [] → self.calculateAverageTransactionAmount = some 0) ∧
    (self.transactions ≠ [] →
      (self.transactions.length : ℚ) ≠ 0 ∧
      self.calculateAverageTransactionAmount =
        some ((self.transactions.map (fun t => t.transaction_amount)).sum /
          (self.transactions.length : ℚ))) := by
  constructor
  · intro h
    simp [calculateAverageTransactionAmount, h]
  · intro h
    have hlen : self.transactions.length ≠ 0 := by
      intro h0
      exact h (List.length_eq_zero.mp h0)
    have hq : (self.transactions.length : ℚ) ≠ 0 := by exact_mod_cast hlen
    refine ⟨hq, ?_⟩
    simp [calculateAverageTransactionAmount, hlen, jsDivide, foldl_addAmount_eq]

/-- Witness of C1: on the store with amounts 10, 20 and 30 the average is 60 / 3. -/
theorem calculateAverageTransactionAmount_spec_witness :
    store102030.transactions ≠ [] ∧
    store102030.calculateAverageTransactionAmount =
      some ((store102030.transactions.map (fun t => t.transaction_amount)).sum /
        (store102030.transactions.length : ℚ)) :=
  ⟨by simp [store102030],
   ((calculateAverageTransactionAmount_spec store102030).2 (by simp [store102030])).2⟩

/-- C2: `calculateTotalAmount` is the sum of the amounts of all transactions: it is 0 on the
empty store, a transaction appended at the end of the store adds its amount to the total of
the transactions before it, and the total of a store with amounts 10, 20, 30 is 60. -/
theorem calculateTotalAmount_spec :
    (∀ self : TransactionAnalyzer,
      self.calculateTotalAmount = (self.transactions.map (fun t => t.transaction_amount)).sum) ∧
    (TransactionAnalyzer.mk []).calculateTotalAmount = 0 ∧
    (∀ (ts : List Transaction) (t : Transaction),
      (TransactionAnalyzer.mk (ts ++ [t])).calculateTotalAmount =
        (TransactionAnalyzer.mk ts).calculateTotalAmount + t.transaction_amount) ∧
    store102030.calculateTotalAmount = 60 := by
  refine ⟨calculateTotalAmount_eq_sum, by simp [calculateTotalAmount], ?_, ?_⟩
  · intro ts t
    simp [calculateTotalAmount, List.foldl_append]
  · simp [calculateTotalAmount, store102030, mkTransaction]
    norm_num

/-- C3: when every transaction amount of the store is non-negative,
`calculateTotalDebitAmount()` is at most `calculateTotalAmount()`. -/
theorem calculateTotalDebitAmount_le_calculateTotalAmount (self : TransactionAnalyzer)
    (h : ∀ t ∈ self.transactions, 0 ≤ t.transaction_amount) :
    self.calculateTotalDebitAmount ≤ self.calculateTotalAmount := by
  rw [calculateTotalAmount_eq_sum]
  unfold calculateTotalDebitAmount
  rw [foldl_addAmount_eq, zero_add]
  exact sum_filter_le_sum _ _ h

/-- Witness of C3: the scenario store has non-negative amounts, so its debit total is at most
its total. -/
theorem calculateTotalDebitAmount_le_calculateTotalAmount_witness :
    (∀ t ∈ scenarioStore.transactions, 0 ≤ t.transaction_amount) ∧
    scenarioStore.calculateTotalDebitAmount ≤ scenarioStore.calculateTotalAmount :=
  ⟨by simp [scenarioStore, mkTransaction],
   calculateTotalDebitAmount_le_calculateTotalAmount scenarioStore
     (by simp [scenarioStore, mkTransaction])⟩

/-- In terms of the dates that the local getters report: `calculateTotalAmountByDate(y, m, d)`
is the sum of the amounts of the transactions that the getters date year y, month m, day d;
`calculateTotalAmountByDate(y, m)` the sum over those of year y and month m;
`calculateTotalAmountByDate(y)` the sum over those of year y; and on the scenario store as
seen at or east of UTC `calculateTotalAmountByDate(2023, 1)` is 150. -/
theorem calculateTotalAmountByDate_spec :
    (∀ (self : TransactionAnalyzer) (y m d : Int),
      self.calculateTotalAmountByDate (some y) (some m) (some d) =
        sumOfAmountsWhere (onDay y m d) self.transactions) ∧
    (∀ (self : TransactionAnalyzer) (y m : Int),
      self.calculateTotalAmountByDate (some y) (some m) none =
        sumOfAmountsWhere (inYearMonth y m) self.transactions) ∧
    (∀ (self : TransactionAnalyzer) (y : Int),
      self.calculateTotalAmountByDate (some y) none none =
        sumOfAmountsWhere (inYear y) self.transactions) ∧
    scenarioStore.calculateTotalAmountByDate (some 2023) (some 1) none = 150 := by
  refine ⟨?_, ?_, ?_, ?_⟩
  · intro self y m d
    simp only [calculateTotalAmountByDate, reduce_filter_eq]
    congr 1
    funext t
    unfold onDay
    cases t.transaction_date <;>
      simp [JSDate.getFullYear, JSDate.getMonth, JSDate.getDate, jsStrictEq, jsAdd]
  · intro self y m
    simp only [calculateTotalAmountByDate, reduce_filter_eq]
    congr 1
    funext t
    unfold inYearMonth
    cases t.transaction_date <;>
      simp [JSDate.getFullYear, JSDate.getMonth, jsStrictEq, jsAdd]
  · intro self y
    simp only [calculateTotalAmountByDate, reduce_filter_eq]
    congr 1
    funext t
    unfold inYear
    cases t.transaction_date <;> simp [JSDate.getFullYear, jsStrictEq]
  · simp [calculateTotalAmountByDate, scenarioStore, mkTransaction, JSDate.getFullYear,
      JSDate.getMonth, jsStrictEq, jsAdd, addAmount]
    norm_num

/-- C5: `calculateTotalAmountByDate()` with no year, no month and no day returns the value of
`calculateTotalAmount()`. -/
theorem calculateTotalAmountByDate_none_eq_calculateTotalAmount (self : TransactionAnalyzer) :
    self.calculateTotalAmountByDate none none none = self.calculateTotalAmount := by
  simp only [calculateTotalAmountByDate, calculateTotalAmount]
  rfl

/-- C6, the code at the failing input: on the scenario store
`calculateTotalAmountByDate(undefined, 1)` is 350, the total of the whole store, while the
transactions of month 1 sum to 150; and `calculateTotalAmountByDate(2023, undefined, 1)` is
350, the total of year 2023, while the transactions of year 2023 and day 1 sum to 200. -/
theorem calculateTotalAmountByDate_ignores_month_and_day :
    scenarioStore.calculateTotalAmountByDate none (some 1) none = 350 ∧
    sumOfAmountsWhere (inMonth 1) scenarioStore.transactions = 150 ∧
    scenarioStore.calculateTotalAmountByDate (some 2023) none (some 1) = 350 ∧
    sumOfAmountsWhere (inYearOnDayOfMonth 2023 1) scenarioStore.transactions = 200 := by
  refine ⟨?_, ?_, ?_, ?_⟩
  · simp [calculateTotalAmountByDate, scenarioStore, mkTransaction, addAmount]
    norm_num
  · simp [sumOfAmountsWhere, inMonth, scenarioStore, mkTransaction]
    norm_num
  · simp [calculateTotalAmountByDate, scenarioStore, mkTransaction, addAmount,
      JSDate.getFullYear, jsStrictEq]
    norm_num
  · simp [sumOfAmountsWhere, inYearOnDayOfMonth, scenarioStore, mkTransaction]

/-! ### Empty result of the month rankings -/

theorem foldl_countDebitByMonth_of_no_debit (ts : List Transaction)
    (obj : List (String × Nat)) (h : ∀ t ∈ ts, t.transaction_type ≠ "debit") :
    ts.foldl countDebitByMonth obj = obj := by
  induction ts generalizing obj with
  | nil => rfl
  | cons t ts ih =>
    have ht : t.transaction_type ≠ "debit" := h t (List.mem_cons_self t ts)
    simp only [List.foldl_cons, countDebitByMonth, ht, if_false]
    exact ih obj (fun u hu => h u (List.mem_cons_of_mem t hu))

/-- C9: on the empty store `findMostTransactionsMonth` and `findMostDebitTransactionMonth`
return `undefined`, and `findMostDebitTransactionMonth` returns `undefined` on every store
with no transaction of type "debit". -/
theorem findMostMonth_undefined :
    (TransactionAnalyzer.mk []).findMostTransactionsMonth = none ∧
    (TransactionAnalyzer.mk []).findMostDebitTransactionMonth = none ∧
    (∀ self : TransactionAnalyzer,
      (∀ t ∈ self.transactions, t.transaction_type ≠ "debit") →
        self.findMostDebitTransactionMonth = none) := by
  refine ⟨by decide, by decide, ?_⟩
  intro self h
  unfold findMostDebitTransactionMonth
  rw [foldl_countDebitByMonth_of_no_debit self.transactions [] h]
  decide

/-- Witness of C9: a store of two credits and a transfer has no debit, and
`findMostDebitTransactionMonth` returns `undefined` on it. -/
theorem findMostMonth_undefined_witness :
    (∀ t ∈ noDebitStore.transactions, t.transaction_type ≠ "debit") ∧
    noDebitStore.findMostDebitTransactionMonth = none :=
  ⟨by decide, findMostMonth_undefined.2.2 noDebitStore (by decide)⟩

/-! ### The dominant type -/

theorem foldl_countType_eq (ts : List Transaction) (counts : Nat × Nat) :
    ts.foldl countType counts =
      (counts.1 + numberOfType "debit" ts, counts.2 + numberOfType "credit" ts) := by
  induction ts generalizing counts with
  | nil => simp [numberOfType]
  | cons t ts ih =>
    rw [List.foldl_cons, ih]
    by_cases hd : t.transaction_type = "debit"
    · simp [countType, numberOfType, List.countP_cons, hd]
      omega
    · by_cases hc : t.transaction_type = "credit"
      · simp [countType, numberOfType, List.countP_cons, hc]
        omega
      · simp [countType, numberOfType, List.countP_cons, hd, hc]

theorem mostTransactionTypes_eq (self : TransactionAnalyzer) :
    self.mostTransactionTypes =
      if numberOfType "debit" self.transactions > numberOfType "credit" self.transactions
      then "debit"
      else if numberOfType "credit" self.transactions > numberOfType "debit" self.transactions
      then "credit"
      else "equal" := by
  simp [mostTransactionTypes, foldl_countType_eq]

theorem numberOfType_filter_debit_credit (type : String)
    (h : type = "debit" ∨ type = "credit") (ts : List Transaction) :
    numberOfType type (ts.filter (fun t =>
      decide (t.transaction_type = "debit") || decide (t.transaction_type = "credit"))) =
      numberOfType type ts := by
  unfold numberOfType
  rw [List.countP_filter]
  congr 1
  funext t
  by_cases ht : t.transaction_type = type
  · rcases h with h | h <;> simp [ht, h]
  · simp [ht]

/-- C10: `mostTransactionTypes` returns "debit" exactly when the store has strictly more
transactions of type "debit" than of type "credit", "credit" exactly when it has strictly more
credits, and "equal" exactly when the two counts are equal (both zero included); removing the
transactions of every other type from the store leaves the result unchanged. -/
theorem mostTransactionTypes_spec (self : TransactionAnalyzer) :
    (self.mostTransactionTypes = "debit" ↔
      numberOfType "credit" self.transactions < numberOfType "debit" self.transactions) ∧
    (self.mostTransactionTypes = "credit" ↔
      numberOfType "debit" self.transactions < numberOfType "credit" self.transactions) ∧
    (self.mostTransactionTypes = "equal" ↔
      numberOfType "debit" self.transactions = numberOfType "credit" self.transactions) ∧
    (TransactionAnalyzer.mk (self.transactions.filter (fun t =>
      decide (t.transaction_type = "debit") ||
        decide (t.transaction_type = "credit")))).mostTransactionTypes =
      self.mostTransactionTypes := by
  have hdc : ("debit" : String) ≠ "credit" := by decide
  have hde : ("debit" : String) ≠ "equal" := by decide
  have hce : ("credit" : String) ≠ "equal" := by decide
  refine ⟨?_, ?_, ?_, ?_⟩
  · rw [mostTransactionTypes_eq]
    split_ifs with h1 h2
    · simp [h1]
    · simp [hdc.symm]; omega
    · simp [hde.symm]; omega
  · rw [mostTransactionTypes_eq]
    split_ifs with h1 h2
    · simp [hdc]; omega
    · simp [h2]
    · simp [hce.symm]; omega
  · rw [mostTransactionTypes_eq]
    split_ifs with h1 h2
    · simp [hde]; omega
    · simp [hce]; omega
    · simp; omega
  · rw [mostTransactionTypes_eq, mostTransactionTypes_eq]
    simp only [numberOfType_filter_debit_credit "debit" (Or.inl rfl),
      numberOfType_filter_debit_credit "credit" (Or.inr rfl)]

/-! ### Decimal digits and month keys -/

theorem digitChar_ne_minus (k : Nat) (h : k < 10) : Nat.digitChar k ≠ '-' := by
  interval_cases k <;> decide

theorem toDigitsCore_no_minus (fuel : Nat) : ∀ (n : Nat) (ds : List Char),
    (∀ c ∈ ds, c ≠ '-') → ∀ c ∈ Nat.toDigitsCore 10 fuel n ds, c ≠ '-' := by
  induction fuel with
  | zero =>
    intro n ds h c hc
    simp only [Nat.toDigitsCore] at hc
    exact h c hc
  | succ fuel ih =>
    intro n ds h c hc
    simp only [Nat.toDigitsCore] at hc
    have hds : ∀ c ∈ Nat.digitChar (n % 10) :: ds, c ≠ '-' := by
      intro c hc
      rcases List.mem_cons.mp hc with h1 | h1
      · rw [h1]; exact digitChar_ne_minus _ (Nat.mod_lt _ (by decide))
      · exact h c h1
    split_ifs at hc with h0
    · exact hds c hc
    · exact ih _ _ hds c hc

theorem toDigits_no_minus (n : Nat) : '-' ∉ Nat.toDigits 10 n := by
  intro h
  exact toDigitsCore_no_minus (n + 1) n [] (by simp) '-' h rfl

theorem foldl_decimal_eq (cs : List Char) (a : Nat) :
    cs.foldl (fun acc c => acc * 10 + (c.toNat - '0'.toNat)) a =
      a * 10 ^ cs.length + decimalValue cs := by
  induction cs generalizing a with
  | nil => simp [decimalValue]
  | cons c cs ih =>
    unfold decimalValue
    rw [List.foldl_cons, List.foldl_cons, ih, ih (0 * 10 + (c.toNat - '0'.toNat))]
    simp only [List.length_cons, pow_succ]
    ring

theorem decimalValue_cons (c : Char) (cs : List Char) :
    decimalValue (c :: cs) = (c.toNat - '0'.toNat) * 10 ^ cs.length + decimalValue cs := by
  unfold decimalValue
  rw [List.foldl_cons, foldl_decimal_eq]
  simp [decimalValue]

theorem digitChar_value (k : Nat) (h : k < 10) : (Nat.digitChar k).toNat - '0'.toNat = k := by
  interval_cases k <;> rfl

theorem decimalValue_toDigitsCore (fuel : Nat) : ∀ (n : Nat) (ds : List Char), n < fuel →
    decimalValue (Nat.toDigitsCore 10 fuel n ds) = n * 10 ^ ds.length + decimalValue ds := by
  induction fuel with
  | zero => intro n ds h; omega
  | succ fuel ih =>
    intro n ds h
    simp only [Nat.toDigitsCore]
    have hmod : n % 10 < 10 := Nat.mod_lt _ (by decide)
    split_ifs with h0
    · rw [decimalValue_cons, digitChar_value _ hmod]
      have : n % 10 = n := by omega
      rw [this]
    · rw [ih (n / 10) _ (by omega), decimalValue_cons, digitChar_value _ hmod]
      simp only [List.length_cons, pow_succ]
      have hn : n = n / 10 * 10 + n % 10 := by omega
      nth_rewrite 3 [hn]
      ring

theorem decimalValue_toDigits (n : Nat) : decimalValue (Nat.toDigits 10 n) = n := by
  unfold Nat.toDigits
  rw [decimalValue_toDigitsCore (n + 1) n [] (by omega)]
  simp [decimalValue]

theorem toDigits_injective (a b : Nat) (h : Nat.toDigits 10 a = Nat.toDigits 10 b) : a = b := by
  have := congrArg decimalValue h
  rwa [decimalValue_toDigits, decimalValue_toDigits] at this

theorem splitChars_of_not_mem (sep : Char) (a : List Char) (h : sep ∉ a) :
    splitChars sep a = [a] := by
  induction a with
  | nil => rfl
  | cons c a ih =>
    have hc : c ≠ sep := fun e => h (by rw [e]; exact List.mem_cons_self _ _)
    have ha : sep ∉ a := fun e => h (List.mem_cons_of_mem _ e)
    simp [splitChars, hc, ih ha]

theorem splitChars_append (sep : Char) (a b : List Char) (h : sep ∉ a) :
    splitChars sep (a ++ sep :: b) = a :: splitChars sep b := by
  induction a with
  | nil => simp [splitChars]
  | cons c a ih =>
    have hc : c ≠ sep := fun e => h (by rw [e]; exact List.mem_cons_self _ _)
    have ha : sep ∉ a := fun e => h (List.mem_cons_of_mem _ e)
    simp [splitChars, hc, ih ha]

theorem monthKey_ymd (y m d : Nat) :
    monthKey (JSDate.ymd (Int.ofNat y) m d) =
      String.mk (Nat.toDigits 10 y ++ '-' :: Nat.toDigits 10 (m + 1)) := by
  have h1 : (Int.ofNat m + 1 : Int) = Int.ofNat (m + 1) := rfl
  simp only [monthKey, JSDate.getFullYear, JSDate.getMonth, jsAdd, Option.map_some', h1,
    jsNumberToString]
  apply String.ext
  simp [String.data_append]

theorem jsSplit_monthKey (y m d : Nat) :
    jsSplit (monthKey (JSDate.ymd (Int.ofNat y) m d)) '-' =
      [String.mk (Nat.toDigits 10 y), String.mk (Nat.toDigits 10 (m + 1))] := by
  rw [monthKey_ymd]
  simp [jsSplit, splitChars_append _ _ _ (toDigits_no_minus y),
    splitChars_of_not_mem _ _ (toDigits_no_minus (m + 1))]

theorem monthKey_injective (y m d y' m' d' : Nat)
    (h : monthKey (JSDate.ymd (Int.ofNat y) m d) = monthKey (JSDate.ymd (Int.ofNat y') m' d')) :
    y = y' ∧ m = m' := by
  have hs := congrArg (fun s => jsSplit s '-') h
  simp only [jsSplit_monthKey] at hs
  simp only [List.cons.injEq, and_true] at hs
  have h1 := toDigits_injective _ _ (congrArg String.data hs.1)
  have h2 := toDigits_injective _ _ (congrArg String.data hs.2)
  omega

theorem monthNameOfKey_monthKey (y m d : Nat) (hm : m < 12) :
    monthNameOfKey (monthKey (JSDate.ymd (Int.ofNat y) m d)) = monthNames[m]? := by
  unfold monthNameOfKey
  simp only [jsSplit_monthKey]
  show jsIndex monthNames
    (jsSub (jsParseInt (some (String.mk (Nat.toDigits 10 (m + 1))))) 1) = monthNames[m]?
  interval_cases m <;> decide

/-! ### The counting object -/

theorem objGet_eq_none_iff (o : List (String × Nat)) (key : String) :
    objGet o key = none ↔ key ∉ o.map Prod.fst := by
  induction o with
  | nil => simp [objGet]
  | cons e o ih =>
    obtain ⟨k, v⟩ := e
    by_cases h : k = key
    · simp [objGet, h]
    · have h' : ¬ key = k := fun e => h e.symm
      simp [objGet, h, h', ih]

theorem objSet_keys_of_mem (o : List (String × Nat)) (key : String) (value : Nat)
    (h : key ∈ o.map Prod.fst) : (objSet o key value).map Prod.fst = o.map Prod.fst := by
  induction o with
  | nil => simp at h
  | cons e o ih =>
    obtain ⟨k, v⟩ := e
    by_cases hk : k = key
    · simp [objSet, hk]
    · have h' : key ∈ o.map Prod.fst := by
        rcases List.mem_cons.mp h with h1 | h1
        · exact absurd h1.symm hk
        · exact h1
      simp only [objSet, hk, if_false, List.map_cons, ih h']

theorem objSet_of_not_mem (o : List (String × Nat)) (key : String) (value : Nat)
    (h : key ∉ o.map Prod.fst) : objSet o key value = o ++ [(key, value)] := by
  induction o with
  | nil => rfl
  | cons e o ih =>
    obtain ⟨k, v⟩ := e
    have hk : k ≠ key := fun e => h (by simp [e])
    have h' : key ∉ o.map Prod.fst := fun e => h (List.mem_cons_of_mem _ e)
    simp only [objSet, hk, if_false, ih h', List.cons_append]

theorem objGet_objSet (o : List (String × Nat)) (key : String) (value : Nat) (key' : String) :
    objGet (objSet o key value) key' = if key = key' then some value else objGet o key' := by
  induction o with
  | nil => simp [objSet, objGet]
  | cons e o ih =>
    obtain ⟨k, v⟩ := e
    by_cases hk : k = key
    · subst hk
      by_cases hk' : k = key'
      · simp [objSet, objGet, hk']
      · simp [objSet, objGet, hk']
    · by_cases hk' : k = key'
      · subst hk'
        have : ¬ key = k := fun e => hk e.symm
        simp [objSet, objGet, hk, this]
      · simp [objSet, objGet, hk, hk', ih]

theorem objGet_of_mem (o : List (String × Nat)) (key : String) (value : Nat)
    (hnd : (o.map Prod.fst).Nodup) (h : (key, value) ∈ o) : objGet o key = some value := by
  induction o with
  | nil => simp at h
  | cons e o ih =>
    obtain ⟨k, v⟩ := e
    rw [List.map_cons, List.nodup_cons] at hnd
    rcases List.mem_cons.mp h with h1 | h1
    · simp only [Prod.mk.injEq] at h1
      simp [objGet, h1.1, h1.2]
    · have hk : k ≠ key := by
        intro e
        apply hnd.1
        rw [e]
        exact List.mem_map.mpr ⟨(key, value), h1, rfl⟩
      simp only [objGet, hk, if_false]
      exact ih hnd.2 h1

theorem tally_spec (ks : List String) :
    (∀ k, objGet (ks.foldl tallyKey []) k = if k ∈ ks then some (ks.count k) else none) ∧
    ((ks.foldl tallyKey []).map Prod.fst).Nodup ∧
    ((ks.foldl tallyKey []).map Prod.fst).Pairwise
      (fun a b => ks.indexOf a < ks.indexOf b) := by
  induction ks using List.reverseRecOn with
  | nil => simp [objGet]
  | append_singleton ks k ih =>
    obtain ⟨hget, hnd, hpw⟩ := ih
    have hkeys : ∀ a, a ∈ (ks.foldl tallyKey []).map Prod.fst ↔ a ∈ ks := by
      intro a
      have h1 := objGet_eq_none_iff (ks.foldl tallyKey []) a
      rw [hget a] at h1
      by_cases ha : a ∈ ks
      · simp only [ha, if_true] at h1
        constructor
        · intro _; exact ha
        · intro _; by_contra hc; exact absurd (h1.mpr hc) (by simp)
      · simp only [ha, if_false, true_iff] at h1
        constructor
        · intro hc; exact absurd hc h1
        · intro hc; exact absurd hc ha
    have hpw' : ((ks.foldl tallyKey []).map Prod.fst).Pairwise
        (fun a b => (ks ++ [k]).indexOf a < (ks ++ [k]).indexOf b) := by
      refine hpw.imp_of_mem ?_
      intro a b ha hb hab
      rw [List.indexOf_append_of_mem ((hkeys a).mp ha),
        List.indexOf_append_of_mem ((hkeys b).mp hb)]
      exact hab
    rw [List.foldl_append, List.foldl_cons, List.foldl_nil]
    by_cases hk : k ∈ ks
    · have hg : objGet (ks.foldl tallyKey []) k = some (ks.count k) := by
        rw [hget k]; simp [hk]
      have hmem : k ∈ (ks.foldl tallyKey []).map Prod.fst := (hkeys k).mpr hk
      simp only [tallyKey, hg]
      refine ⟨?_, ?_, ?_⟩
      · intro a
        rw [objGet_objSet, hget a]
        by_cases hka : k = a
        · subst hka
          simp [hk]
        · have hak : ¬ a = k := fun e => hka e.symm
          simp [hka, hak, List.count_append, List.count_cons]
      · rw [objSet_keys_of_mem _ _ _ hmem]; exact hnd
      · rw [objSet_keys_of_mem _ _ _ hmem]; exact hpw'
    · have hg : objGet (ks.foldl tallyKey []) k = none := by
        rw [hget k]; simp [hk]
      have hmem : k ∉ (ks.foldl tallyKey []).map Prod.fst := fun h => hk ((hkeys k).mp h)
      simp only [tallyKey, hg]
      rw [objSet_of_not_mem _ _ _ hmem]
      refine ⟨?_, ?_, ?_⟩
      · intro a
        have h0 := objGet_objSet (ks.foldl tallyKey []) k 1 a
        rw [objSet_of_not_mem _ _ _ hmem] at h0
        rw [h0, hget a]
        by_cases hka : k = a
        · subst hka
          simp [hk, List.count_append, List.count_eq_zero_of_not_mem hk]
        · have hak : ¬ a = k := fun e => hka e.symm
          simp [hka, hak, List.count_append, List.count_cons]
      · rw [List.map_append, List.map_cons, List.map_nil]
        exact List.Nodup.append hnd (List.nodup_singleton k)
          (by simpa [List.disjoint_singleton] using hmem)
      · rw [List.map_append, List.map_cons, List.map_nil, List.pairwise_append]
        refine ⟨hpw', List.pairwise_singleton _ _, ?_⟩
        intro a ha b hb
        rw [List.mem_singleton] at hb
        subst hb
        have hamem : a ∈ ks := (hkeys a).mp ha
        rw [List.indexOf_append_of_mem hamem, List.indexOf_append_of_not_mem hk]
        have := List.indexOf_lt_length.mpr hamem
        omega

theorem maxMonthLoop_from (l : List (String × Nat)) : ∀ acc : String × Nat,
    (l.foldl (fun acc entry => if entry.2 > acc.2 then (entry.1, entry.2) else acc) acc = acc ∧
      ∀ e ∈ l, e.2 ≤ acc.2) ∨
    ∃ front e back, l = front ++ e :: back ∧
      l.foldl (fun acc entry => if entry.2 > acc.2 then (entry.1, entry.2) else acc) acc = e ∧
      acc.2 < e.2 ∧ (∀ x ∈ front, x.2 < e.2) ∧ (∀ x ∈ back, x.2 ≤ e.2) := by
  induction l with
  | nil => intro acc; left; simp
  | cons x l ih =>
    intro acc
    rw [List.foldl_cons]
    by_cases hx : x.2 > acc.2
    · simp only [hx, if_true]
      rcases ih (x.1, x.2) with ⟨h1, h2⟩ | ⟨front, e, back, h1, h2, h3, h4, h5⟩
      · right
        refine ⟨[], x, l, rfl, h1, hx, by simp, h2⟩
      · right
        refine ⟨x :: front, e, back, by simp [h1], h2, ?_, ?_, h5⟩
        · simp only at h3; omega
        · intro y hy
          rcases List.mem_cons.mp hy with hy | hy
          · rw [hy]; exact h3
          · exact h4 y hy
    · simp only [hx, if_false]
      rcases ih acc with ⟨h1, h2⟩ | ⟨front, e, back, h1, h2, h3, h4, h5⟩
      · left
        refine ⟨h1, ?_⟩
        intro y hy
        rcases List.mem_cons.mp hy with hy | hy
        · rw [hy]; omega
        · exact h2 y hy
      · right
        refine ⟨x :: front, e, back, by simp [h1], h2, h3, ?_, h5⟩
        intro y hy
        rcases List.mem_cons.mp hy with hy | hy
        · rw [hy]; omega
        · exact h4 y hy

theorem mem_of_objGet (o : List (String × Nat)) (key : String) (value : Nat)
    (h : objGet o key = some value) : (key, value) ∈ o := by
  induction o with
  | nil => simp [objGet] at h
  | cons e o ih =>
    obtain ⟨k, v⟩ := e
    by_cases hk : k = key
    · simp only [objGet, hk, if_true, Option.some.injEq] at h
      simp [hk, h]
    · simp only [objGet, hk, if_false] at h
      exact List.mem_cons_of_mem _ (ih h)

theorem indexOf_le_of_getElem? (ks : List String) : ∀ (j : Nat) (a : String),
    ks[j]? = some a → ks.indexOf a ≤ j := by
  induction ks with
  | nil => intro j a h; simp at h
  | cons k ks ih =>
    intro j a h
    by_cases hk : k = a
    · rw [List.indexOf_cons_eq _ hk]; omega
    · rw [List.indexOf_cons_ne _ hk]
      cases j with
      | zero => simp at h; exact absurd h hk
      | succ j =>
        simp only [List.getElem?_cons_succ] at h
        have := ih j a h
        omega

/-! ### The month with most transactions -/

theorem foldl_countByMonth_eq (ts : List Transaction) (obj : List (String × Nat)) :
    ts.foldl countByMonth obj =
      (ts.map (fun t => monthKey t.transaction_date)).foldl tallyKey obj := by
  rw [List.foldl_map]
  rfl

theorem isValid_form (date : JSDate) (h : date.isValid = true) :
    ∃ y m d : Nat, date = JSDate.ymd (Int.ofNat y) m d ∧ m < 12 := by
  cases date with
  | invalid => simp [JSDate.isValid] at h
  | ymd y m d =>
    simp only [JSDate.isValid, Bool.and_eq_true, decide_eq_true_eq] at h
    obtain ⟨⟨⟨hy, hm⟩, _⟩, _⟩ := h
    obtain ⟨n, rfl⟩ := Int.eq_ofNat_of_zero_le hy
    exact ⟨n, m, d, rfl, hm⟩

theorem monthKey_eq_iff (t u : Transaction) (ht : t.transaction_date.isValid = true)
    (hu : u.transaction_date.isValid = true) :
    monthKey u.transaction_date = monthKey t.transaction_date ↔ sameYearMonth t u = true := by
  obtain ⟨y, m, d, hd, _⟩ := isValid_form _ ht
  obtain ⟨y', m', d', hd', _⟩ := isValid_form _ hu
  unfold sameYearMonth
  rw [hd, hd']
  constructor
  · intro h
    have := monthKey_injective _ _ _ _ _ _ h
    simp [this.1, this.2]
  · intro h
    simp only [Bool.and_eq_true, decide_eq_true_eq] at h
    have hy : y = y' := Int.ofNat.inj h.1
    rw [hy, h.2, monthKey_ymd, monthKey_ymd]

theorem count_monthKey_eq_groupSize (ts : List Transaction)
    (hvalid : ∀ t ∈ ts, t.transaction_date.isValid = true) (t : Transaction)
    (ht : t.transaction_date.isValid = true) :
    (ts.map (fun t => monthKey t.transaction_date)).count (monthKey t.transaction_date) =
      groupSize ts t := by
  unfold groupSize
  rw [List.count, List.countP_map]
  apply List.countP_congr
  intro u hu
  simp only [Function.comp_apply, beq_iff_eq]
  exact monthKey_eq_iff t u ht (hvalid u hu)

theorem mostFrequentMonth_winner_key (ts : List Transaction) (hne : ts ≠ [])
    (hvalid : ∀ t ∈ ts, t.transaction_date.isValid = true) :
    ∃ (i : Nat) (t : Transaction) (y m d : Nat),
      ts[i]? = some t ∧ t.transaction_date = JSDate.ymd (Int.ofNat y) m d ∧ m < 12 ∧
      (maxMonthLoop (ts.foldl countByMonth [])).1 = monthKey t.transaction_date ∧
      (∀ u ∈ ts, groupSize ts u ≤ groupSize ts t) ∧
      (∀ (j : Nat) (u : Transaction), j < i → ts[j]? = some u →
        groupSize ts u < groupSize ts t) := by
  rw [foldl_countByMonth_eq]
  obtain ⟨hget, hnd, hpw⟩ := tally_spec (ts.map (fun t => monthKey t.transaction_date))
  generalize hks : ts.map (fun t => monthKey t.transaction_date) = ks at hget hnd hpw
  generalize ho : ks.foldl tallyKey [] = o at hget hnd hpw
  -- every transaction has its entry, holding the size of its group
  have hentry : ∀ u ∈ ts, (monthKey u.transaction_date, groupSize ts u) ∈ o := by
    intro u hu
    apply mem_of_objGet
    have hmem : monthKey u.transaction_date ∈ ks := by
      rw [← hks]; exact List.mem_map.mpr ⟨u, hu, rfl⟩
    rw [hget, if_pos hmem, ← hks, count_monthKey_eq_groupSize ts hvalid u (hvalid u hu)]
  have hmapget : ∀ (j : Nat) (u : Transaction), ts[j]? = some u →
      ks[j]? = some (monthKey u.transaction_date) := by
    intro j u hju
    rw [← hks, List.getElem?_map, hju]
    rfl
  have hpos : ∀ u ∈ ts, 0 < groupSize ts u := by
    intro u hu
    unfold groupSize
    rw [List.countP_pos_iff]
    refine ⟨u, hu, ?_⟩
    exact (monthKey_eq_iff u u (hvalid u hu) (hvalid u hu)).mp rfl
  have hkey : ∀ e ∈ o, e.1 ∈ ks := by
    intro e he
    have h1 := objGet_of_mem o e.1 e.2 hnd he
    rw [hget] at h1
    by_contra hc
    simp [hc] at h1
  rcases maxMonthLoop_from o ("", 0) with ⟨_, hall⟩ | ⟨front, e, back, hsplit, hres, _, hfront, hback⟩
  · exfalso
    obtain ⟨t0, ht0⟩ := List.exists_mem_of_ne_nil ts hne
    have h1 := hall _ (hentry t0 ht0)
    have h2 := hpos t0 ht0
    simp only at h1
    omega
  · have he : e ∈ o := by rw [hsplit]; simp
    have hek : e.1 ∈ ks := hkey e he
    have hi : ks.indexOf e.1 < ks.length := List.indexOf_lt_length.mpr hek
    have hi' : ks.indexOf e.1 < ts.length := by rw [← hks] at hi ⊢; simpa using hi
    have hkt : monthKey (ts[ks.indexOf e.1]).transaction_date = e.1 := by
      have h1 := List.getElem_indexOf hi
      have h2 := hmapget _ _ (List.getElem?_eq_getElem hi')
      rw [List.getElem?_eq_getElem hi, h1] at h2
      exact (Option.some.inj h2).symm
    have htmem : ts[ks.indexOf e.1] ∈ ts := List.getElem_mem _
    obtain ⟨y, m, d, hd, hm⟩ := isValid_form _ (hvalid _ htmem)
    have hsize : e.2 = groupSize ts (ts[ks.indexOf e.1]) := by
      have h1 := objGet_of_mem o e.1 e.2 hnd he
      have h2 := objGet_of_mem o _ _ hnd (hentry _ htmem)
      rw [hkt, h1] at h2
      exact Option.some.inj h2
    refine ⟨ks.indexOf e.1, ts[ks.indexOf e.1], y, m, d, ?_, hd, hm, ?_, ?_, ?_⟩
    · exact List.getElem?_eq_getElem hi'
    · unfold maxMonthLoop
      rw [hres]
      exact hkt.symm
    · intro u hu
      have h1 := hentry u hu
      rw [hsplit] at h1
      rw [← hsize]
      rcases List.mem_append.mp h1 with h2 | h2
      · exact Nat.le_of_lt (hfront _ h2)
      · rcases List.mem_cons.mp h2 with h3 | h3
        · rw [← h3]
        · exact hback _ h3
    · intro j u hj hju
      have hu : u ∈ ts := List.getElem?_mem hju
      have hkj := hmapget j u hju
      have hle := indexOf_le_of_getElem? ks j _ hkj
      have h1 := hentry u hu
      rw [hsplit] at h1
      rw [← hsize]
      rcases List.mem_append.mp h1 with h2 | h2
      · exact hfront _ h2
      · exfalso
        rcases List.mem_cons.mp h2 with h3 | h3
        · have : monthKey u.transaction_date = e.1 := by rw [← h3]
          rw [this] at hle
          omega
        · rw [hsplit, List.map_append, List.map_cons, List.pairwise_append] at hpw
          have h4 := (List.pairwise_cons.mp hpw.2.1).1 _
            (List.mem_map.mpr ⟨_, h3, rfl⟩)
          simp only at h4
          omega

theorem mostFrequentMonth_winner (ts : List Transaction) (hne : ts ≠ [])
    (hvalid : ∀ t ∈ ts, t.transaction_date.isValid = true) :
    ∃ (i : Nat) (t : Transaction) (y m d : Nat),
      ts[i]? = some t ∧ t.transaction_date = JSDate.ymd (Int.ofNat y) m d ∧ m < 12 ∧
      monthNameOfKey (maxMonthLoop (ts.foldl countByMonth [])).1 = monthNames[m]? ∧
      (∀ u ∈ ts, groupSize ts u ≤ groupSize ts t) ∧
      (∀ (j : Nat) (u : Transaction), j < i → ts[j]? = some u →
        groupSize ts u < groupSize ts t) := by
  obtain ⟨i, t, y, m, d, hi, hd, hm, hkey, hmax, hfirst⟩ :=
    mostFrequentMonth_winner_key ts hne hvalid
  refine ⟨i, t, y, m, d, hi, hd, hm, ?_, hmax, hfirst⟩
  rw [hkey, hd]
  exact monthNameOfKey_monthKey y m d hm

/-- Outside the valid dates: for a negative year the key begins with a minus sign, so the
second piece of the split is the digits of the year, and a date of May of year -1 is named
after month 1. -/
theorem monthNameOfKey_negative_year :
    monthKey (JSDate.ymd (-1) 4 1) = "-1-5" ∧
    monthNameOfKey (monthKey (JSDate.ymd (-1) 4 1)) = monthNames[0]? := by
  decide

theorem jsIndex_none_or_mem (arr : List String) (i : Option Int) :
    jsIndex arr i = none ∨ ∃ name ∈ arr, jsIndex arr i = some name := by
  cases i with
  | none => left; rfl
  | some i =>
    cases i with
    | negSucc n => left; rfl
    | ofNat n =>
      show arr[n]? = none ∨ ∃ name ∈ arr, arr[n]? = some name
      cases h : arr[n]? with
      | none => left; rfl
      | some name => right; exact ⟨name, List.getElem?_mem h, rfl⟩

/-- C7, the claim as stated fails: on the scenario store the result is not "January". -/
theorem findMostTransactionsMonth_not_english :
    scenarioStore.findMostTransactionsMonth ≠ some "January" := by
  decide

/-- C7, amended: for every store `findMostTransactionsMonth` returns `undefined` or one of
the twelve Russian month names of the table `monthNames` (whose third entry is "Март"); on a
non-empty store with valid dates it returns the entry of `monthNames` for the month of a
transaction whose (year, month) group is at least as large as every other group; and on the
scenario store it returns "Январь". -/
theorem findMostTransactionsMonth_russian_name :
    (∀ self : TransactionAnalyzer,
      self.findMostTransactionsMonth = none ∨
      ∃ name ∈ ["Январь", "Февраль", "Март", "Апрель", "Май", "Июнь", "Июль", "Август",
          "Сентябрь", "Октябрь", "Ноябрь", "Декабрь"],
        self.findMostTransactionsMonth = some name) ∧
    monthNames[2]? = some "Март" ∧
    (∀ self : TransactionAnalyzer, self.transactions ≠ [] →
      (∀ t ∈ self.transactions, t.transaction_date.isValid = true) →
      ∃ t ∈ self.transactions, ∃ (y : Int) (m d : Nat),
        t.transaction_date = JSDate.ymd y m d ∧
        self.findMostTransactionsMonth = monthNames[m]? ∧
        ∀ u ∈ self.transactions,
          groupSize self.transactions u ≤ groupSize self.transactions t) ∧
    scenarioStore.findMostTransactionsMonth = some "Январь" := by
  refine ⟨?_, by decide, ?_, by decide⟩
  · intro self
    exact jsIndex_none_or_mem monthNames _
  · intro self hne hvalid
    obtain ⟨i, t, y, m, d, hi, hd, _, hres, hmax, _⟩ :=
      mostFrequentMonth_winner self.transactions hne hvalid
    exact ⟨t, List.getElem?_mem hi, Int.ofNat y, m, d, hd, hres, hmax⟩

/-- Witness of C7: the scenario store is not empty and its dates are valid, so its result is
the `monthNames` entry of the month of a transaction of a largest group. -/
theorem findMostTransactionsMonth_russian_name_witness :
    scenarioStore.transactions ≠ [] ∧
    (∀ t ∈ scenarioStore.transactions, t.transaction_date.isValid = true) ∧
    ∃ t ∈ scenarioStore.transactions, ∃ (y : Int) (m d : Nat),
      t.transaction_date = JSDate.ymd y m d ∧
      scenarioStore.findMostTransactionsMonth = monthNames[m]? ∧
      ∀ u ∈ scenarioStore.transactions,
        groupSize scenarioStore.transactions u ≤ groupSize scenarioStore.transactions t :=
  ⟨by decide, by decide,
   findMostTransactionsMonth_russian_name.2.2.1 scenarioStore (by decide) (by decide)⟩

/-- For years that are not negative: on a non-empty store whose dates all satisfy `isValid`,
`findMostTransactionsMonth` returns the
`monthNames` entry for the month of a stored transaction `t`, at position `i`, such that the
(year, month) group of `t` is at least as large as the group of every stored transaction,
and every transaction stored before position `i` belongs to a strictly smaller group: among
the groups of maximal size the winner is the one whose first transaction comes first in
store order. -/
theorem findMostTransactionsMonth_first_largest_group (self : TransactionAnalyzer)
    (hne : self.transactions ≠ [])
    (hvalid : ∀ t ∈ self.transactions, t.transaction_date.isValid = true) :
    ∃ (i : Nat) (t : Transaction) (y : Int) (m d : Nat),
      self.transactions[i]? = some t ∧ t.transaction_date = JSDate.ymd y m d ∧ m < 12 ∧
      self.findMostTransactionsMonth = monthNames[m]? ∧
      (∀ u ∈ self.transactions,
        groupSize self.transactions u ≤ groupSize self.transactions t) ∧
      (∀ (j : Nat) (u : Transaction), j < i → self.transactions[j]? = some u →
        groupSize self.transactions u < groupSize self.transactions t) := by
  obtain ⟨i, t, y, m, d, h⟩ := mostFrequentMonth_winner self.transactions hne hvalid
  exact ⟨i, t, Int.ofNat y, m, d, h⟩

/-- An instance of the result for years that are not negative: the scenario store, which is
not empty and whose dates satisfy `isValid`. -/
theorem findMostTransactionsMonth_first_largest_group_witness :
    scenarioStore.transactions ≠ [] ∧
    (∀ t ∈ scenarioStore.transactions, t.transaction_date.isValid = true) ∧
    ∃ (i : Nat) (t : Transaction) (y : Int) (m d : Nat),
      scenarioStore.transactions[i]? = some t ∧ t.transaction_date = JSDate.ymd y m d ∧
      m < 12 ∧ scenarioStore.findMostTransactionsMonth = monthNames[m]? ∧
      (∀ u ∈ scenarioStore.transactions,
        groupSize scenarioStore.transactions u ≤ groupSize scenarioStore.transactions t) ∧
      (∀ (j : Nat) (u : Transaction), j < i → scenarioStore.transactions[j]? = some u →
        groupSize scenarioStore.transactions u < groupSize scenarioStore.transactions t) :=
  ⟨by decide, by decide,
   findMostTransactionsMonth_first_largest_group scenarioStore (by decide) (by decide)⟩

/-! ### Look-up by identifier -/

theorem jsFind_eq_some (arr : List Transaction) (callback : Transaction → Bool)
    (t : Transaction) (h : jsFind arr callback = some t) :
    callback t = true ∧ ∃ i, arr[i]? = some t ∧
      ∀ (j : Nat) (u : Transaction), j < i → arr[j]? = some u → callback u = false := by
  induction arr with
  | nil => simp [jsFind] at h
  | cons x rest ih =>
    by_cases hx : callback x = true
    · simp only [jsFind, hx, if_true, Option.some.injEq] at h
      subst h
      exact ⟨hx, 0, by simp, fun j u hj _ => absurd hj (Nat.not_lt_zero j)⟩
    · simp only [jsFind, hx] at h
      simp only [Bool.false_eq_true, if_false] at h
      obtain ⟨h1, i, h2, h3⟩ := ih h
      refine ⟨h1, i + 1, by simpa using h2, ?_⟩
      intro j u hj hu
      cases j with
      | zero =>
        simp only [List.getElem?_cons_zero, Option.some.injEq] at hu
        rw [← hu]
        simpa using hx
      | succ j =>
        simp only [List.getElem?_cons_succ] at hu
        exact h3 j u (by omega) hu

theorem jsFind_eq_none_iff (arr : List Transaction) (callback : Transaction → Bool) :
    jsFind arr callback = none ↔ ∀ t ∈ arr, callback t = false := by
  induction arr with
  | nil => simp [jsFind]
  | cons x rest ih =>
    by_cases hx : callback x = true
    · simp [jsFind, hx]
    · have hx' : callback x = false := by simpa using hx
      simp [jsFind, hx', ih]

theorem findTransactionById_eq (self : TransactionAnalyzer) (id : String) :
    self.findTransactionById id =
      jsFind self.transactions (fun transaction => decide (transaction.transaction_id = id)) := by
  unfold findTransactionById
  cases jsFind self.transactions (fun transaction => decide (transaction.transaction_id = id))
    <;> rfl

/-- C11: when `findTransactionById(id)` returns a transaction, its identifier is `id` and it
stands at a position of the store before which no transaction has that identifier; the
method returns `null` if and only if no stored transaction has the identifier. On a store
holding the identifier "3" twice it returns the first of the two records, and `null` for the
identifier "7", which the store does not hold. -/
theorem findTransactionById_spec :
    (∀ (self : TransactionAnalyzer) (id : String) (t : Transaction),
      self.findTransactionById id = some t →
        t.transaction_id = id ∧
        ∃ i, self.transactions[i]? = some t ∧
          ∀ (j : Nat) (u : Transaction), j < i → self.transactions[j]? = some u →
            u.transaction_id ≠ id) ∧
    (∀ (self : TransactionAnalyzer) (id : String),
      self.findTransactionById id = none ↔
        ∀ t ∈ self.transactions, t.transaction_id ≠ id) ∧
    idStore.findTransactionById "3" = idStore.transactions[1]? ∧
    idStore.findTransactionById "7" = none := by
  refine ⟨?_, ?_, by decide, by decide⟩
  · intro self id t h
    rw [findTransactionById_eq] at h
    obtain ⟨h1, i, h2, h3⟩ := jsFind_eq_some _ _ t h
    refine ⟨by simpa using h1, i, h2, ?_⟩
    intro j u hj hu
    simpa using h3 j u hj hu
  · intro self id
    rw [findTransactionById_eq, jsFind_eq_none_iff]
    simp

/-- Witness of C11: on the store that holds the identifier "3" twice, the record returned for
"3" has that identifier and no record before it has it. -/
theorem findTransactionById_spec_witness :
    idStore.findTransactionById "3" =
      some { mkTransaction (JSDate.ymd 2023 0 20) 50 "credit" with transaction_id := "3" } ∧
    ({ mkTransaction (JSDate.ymd 2023 0 20) 50 "credit" with
        transaction_id := "3" } : Transaction).transaction_id = "3" ∧
    ∃ i, idStore.transactions[i]? =
        some { mkTransaction (JSDate.ymd 2023 0 20) 50 "credit" with transaction_id := "3" } ∧
      ∀ (j : Nat) (u : Transaction), j < i → idStore.transactions[j]? = some u →
        u.transaction_id ≠ "3" :=
  ⟨by decide, findTransactionById_spec.1 idStore "3" _ (by decide)⟩

/-! ### The store as a sequence that only grows -/

/-- C12: after `addTransaction(t)` the sequence returned by `getAllTransactions` is the
previous sequence followed by `t`: its length is the previous length plus 1, its first
elements are the previous sequence, unchanged and in order, and `t` is last. Nothing is
checked: a transaction whose identifier is already stored is appended like any other. -/
theorem addTransaction_spec :
    (∀ (self : TransactionAnalyzer) (t : Transaction),
      (self.addTransaction t).getAllTransactions = self.getAllTransactions ++ [t] ∧
      (self.addTransaction t).getAllTransactions.length =
        self.getAllTransactions.length + 1 ∧
      (self.addTransaction t).getAllTransactions.take self.getAllTransactions.length =
        self.getAllTransactions ∧
      (self.addTransaction t).getAllTransactions.getLast? = some t) ∧
    (idStore.findTransactionById "3" ≠ none ∧
      (idStore.addTransaction
        { mkTransaction (JSDate.ymd 2023 2 5) 10 "debit" with
            transaction_id := "3" }).getAllTransactions =
        idStore.getAllTransactions ++
          [{ mkTransaction (JSDate.ymd 2023 2 5) 10 "debit" with transaction_id := "3" }]) := by
  refine ⟨?_, by decide, rfl⟩
  intro self t
  simp [addTransaction, getAllTransactions]

theorem performAll_transactions (calls : List Call) : ∀ self : TransactionAnalyzer,
    ∃ added : List Transaction,
      (performAll self calls).transactions = self.transactions ++ added := by
  induction calls with
  | nil => intro self; exact ⟨[], by simp [performAll]⟩
  | cons call calls ih =>
    intro self
    obtain ⟨added, h⟩ := ih (perform self call).1
    have hstep : ∃ one : List Transaction,
        (perform self call).1.transactions = self.transactions ++ one := by
      cases call <;> first
        | exact ⟨[_], rfl⟩
        | exact ⟨[], (List.append_nil _).symm⟩
    obtain ⟨one, h1⟩ := hstep
    refine ⟨one ++ added, ?_⟩
    have : performAll self (call :: calls) = performAll (perform self call).1 calls := rfl
    rw [this, h, h1, List.append_assoc]

/-- C13: a call of any method other than `addTransaction` leaves the object, and so the
stored sequence, as it was; hence along any sequence of calls the store only grows at its
end: after further calls its length has not decreased and every transaction already stored
is still at its position. -/
theorem store_append_only :
    (∀ (self : TransactionAnalyzer) (call : Call),
      (∀ t, call ≠ Call.addTransaction t) → (perform self call).1 = self) ∧
    (∀ (self : TransactionAnalyzer) (calls more : List Call),
      (performAll self calls).transactions.length ≤
        (performAll self (calls ++ more)).transactions.length ∧
      ∀ (i : Nat) (t : Transaction), (performAll self calls).transactions[i]? = some t →
        (performAll self (calls ++ more)).transactions[i]? = some t) := by
  constructor
  · intro self call h
    cases call <;> first
      | rfl
      | exact absurd rfl (h _)
  · intro self calls more
    have hsplit : performAll self (calls ++ more) = performAll (performAll self calls) more := by
      unfold performAll
      rw [List.foldl_append]
    obtain ⟨added, h⟩ := performAll_transactions more (performAll self calls)
    rw [hsplit, h]
    refine ⟨by simp, ?_⟩
    intro i t hi
    have hlt : i < (performAll self calls).transactions.length :=
      (List.getElem?_eq_some.mp hi).1
    rw [List.getElem?_append_left hlt]
    exact hi

/-- Witness of C13: a look-up is not `addTransaction` and leaves the scenario store as it was;
the transaction first in the store after a look-up is still first after an addition and a
filter. -/
theorem store_append_only_witness :
    (perform scenarioStore (Call.findTransactionById "3")).1 = scenarioStore ∧
    (performAll scenarioStore
      ([Call.findTransactionById "3"] ++
       [Call.addTransaction (mkTransaction (JSDate.ymd 2023 2 5) 10 "debit"),
        Call.getTransactionByType "debit"])).transactions[0]? =
      some (mkTransaction (JSDate.ymd 2023 0 15) 100 "debit") :=
  ⟨store_append_only.1 scenarioStore (Call.findTransactionById "3")
      (fun _ h => Call.noConfusion h),
   (store_append_only.2 scenarioStore [Call.findTransactionById "3"] _).2 0 _ rfl⟩

/-! ### Filters -/

/-- C14: when `minAmount > maxAmount`, `getTransactionsByAmountRange(minAmount, maxAmount)`
returns the empty sequence, whatever the store. -/
theorem getTransactionsByAmountRange_empty (self : TransactionAnalyzer)
    (minAmount maxAmount : ℚ) (h : minAmount > maxAmount) :
    self.getTransactionsByAmountRange minAmount maxAmount = [] := by
  unfold getTransactionsByAmountRange
  rw [List.filter_eq_nil_iff]
  intro t _
  simp only [Bool.and_eq_true, decide_eq_true_eq, not_and, not_le]
  intro h1
  exact lt_of_lt_of_le h h1

/-- Witness of C14: the range from 100 down to 50 on the scenario store. -/
theorem getTransactionsByAmountRange_empty_witness :
    (100 : ℚ) > 50 ∧ scenarioStore.getTransactionsByAmountRange 100 50 = [] :=
  ⟨by norm_num, getTransactionsByAmountRange_empty scenarioStore 100 50 (by norm_num)⟩

/-! ### Distinct types -/

theorem foldl_setAdd_spec (ts : List Transaction) : ∀ set : List String, set.Nodup →
    (ts.foldl (fun transactionTypes transaction =>
        setAdd transactionTypes transaction.transaction_type) set).Nodup ∧
    ∀ x, x ∈ ts.foldl (fun transactionTypes transaction =>
        setAdd transactionTypes transaction.transaction_type) set ↔
      x ∈ set ∨ ∃ t ∈ ts, t.transaction_type = x := by
  induction ts with
  | nil => intro set h; simp [h]
  | cons t ts ih =>
    intro set h
    have hnd : (setAdd set t.transaction_type).Nodup := by
      unfold setAdd
      split_ifs with hm
      · exact h
      · exact List.Nodup.append h (List.nodup_singleton _)
          (by simpa [List.disjoint_singleton] using hm)
    obtain ⟨h1, h2⟩ := ih (setAdd set t.transaction_type) hnd
    rw [List.foldl_cons]
    refine ⟨h1, ?_⟩
    intro x
    rw [h2 x]
    have hmem : x ∈ setAdd set t.transaction_type ↔ x ∈ set ∨ t.transaction_type = x := by
      unfold setAdd
      split_ifs with hm
      · constructor
        · intro hx; exact Or.inl hx
        · intro hx
          rcases hx with hx | hx
          · exact hx
          · rw [← hx]; exact hm
      · simp [eq_comm]
    rw [hmem]
    simp only [List.mem_cons, exists_eq_or_imp]
    tauto

/-- C16: `getUniqueTransactionType` returns a sequence without repetition whose elements are
exactly the `transaction_type` values that occur in the store; for the types debit, credit,
debit it has exactly the two elements debit and credit. -/
theorem getUniqueTransactionType_spec :
    (∀ self : TransactionAnalyzer,
      self.getUniqueTransactionType.Nodup ∧
      ∀ x, x ∈ self.getUniqueTransactionType ↔
        ∃ t ∈ self.transactions, t.transaction_type = x) ∧
    scenarioStore.transactions.map (fun t => t.transaction_type) =
      ["debit", "credit", "debit"] ∧
    scenarioStore.getUniqueTransactionType.length = 2 ∧
    "debit" ∈ scenarioStore.getUniqueTransactionType ∧
    "credit" ∈ scenarioStore.getUniqueTransactionType := by
  refine ⟨?_, by decide, by decide, by decide, by decide⟩
  intro self
  obtain ⟨h1, h2⟩ := foldl_setAdd_spec self.transactions [] List.nodup_nil
  refine ⟨h1, ?_⟩
  intro x
  have := h2 x
  simpa using this

/-! ### Filter by type, descriptions -/

/-- C17: `getTransactionByType(type)` returns, in store order, exactly the transactions whose
`transaction_type` is the text `type`: the result is a subsequence of the store, each of its
elements has that type, a stored transaction of that type occurs in it as often as in the
store, and it is empty when no transaction has the type. The comparison is exact: "Debit"
selects nothing from a store whose debits are typed "debit". -/
theorem getTransactionByType_spec :
    (∀ (self : TransactionAnalyzer) (type : String),
      (self.getTransactionByType type).Sublist self.transactions ∧
      (∀ t ∈ self.getTransactionByType type, t.transaction_type = type) ∧
      (∀ t : Transaction, t.transaction_type = type →
        (self.getTransactionByType type).count t = self.transactions.count t) ∧
      ((∀ t ∈ self.transactions, t.transaction_type ≠ type) →
        self.getTransactionByType type = [])) ∧
    scenarioStore.getTransactionByType "Debit" = [] ∧
    scenarioStore.getTransactionByType "debit" =
      [mkTransaction (JSDate.ymd 2023 0 15) 100 "debit",
       mkTransaction (JSDate.ymd 2023 1 1) 200 "debit"] := by
  refine ⟨?_, by decide, by decide⟩
  intro self type
  unfold getTransactionByType
  refine ⟨List.filter_sublist _, ?_, ?_, ?_⟩
  · intro t ht
    simpa using (List.mem_filter.mp ht).2
  · intro t ht
    rw [List.count_filter]
    simpa using ht
  · intro h
    rw [List.filter_eq_nil_iff]
    intro t ht
    simpa using h t ht

/-- Witness of C17: the first transaction of the scenario store is a debit and occurs once
among the debits returned, as in the store; no transaction is typed "transfer", and that type
gives the empty sequence. -/
theorem getTransactionByType_spec_witness :
    (scenarioStore.getTransactionByType "debit").count
        (mkTransaction (JSDate.ymd 2023 0 15) 100 "debit") =
      scenarioStore.transactions.count (mkTransaction (JSDate.ymd 2023 0 15) 100 "debit") ∧
    (∀ t ∈ scenarioStore.transactions, t.transaction_type ≠ "transfer") ∧
    scenarioStore.getTransactionByType "transfer" = [] :=
  ⟨(getTransactionByType_spec.1 scenarioStore "debit").2.2.1 _ rfl,
   by decide,
   (getTransactionByType_spec.1 scenarioStore "transfer").2.2.2 (by decide)⟩

/-- C18: `mapTransactionDescriptions` returns as many elements as the store holds
transactions, and its element at each position is the `transaction_description` of the
transaction stored at that position, repeated descriptions included. -/
theorem mapTransactionDescriptions_spec :
    (∀ self : TransactionAnalyzer,
      self.mapTransactionDescriptions.length = self.transactions.length ∧
      ∀ i : Nat, self.mapTransactionDescriptions[i]? =
        (self.transactions[i]?).map (fun t => t.transaction_description)) ∧
    scenarioStore.mapTransactionDescriptions =
      ["Refund for returned item", "Refund for returned item", "Refund for returned item"] := by
  refine ⟨?_, by decide⟩
  intro self
  unfold mapTransactionDescriptions
  exact ⟨List.length_map _ _, fun i => List.getElem?_map _ _ _⟩

/-! ### The month with most debits -/

theorem foldl_countDebitByMonth_eq (ts : List Transaction) : ∀ obj : List (String × Nat),
    ts.foldl countDebitByMonth obj =
      (ts.filter (fun transaction =>
        decide (transaction.transaction_type = "debit"))).foldl countByMonth obj := by
  induction ts with
  | nil => intro obj; rfl
  | cons t ts ih =>
    intro obj
    by_cases ht : t.transaction_type = "debit"
    · simp only [List.foldl_cons, List.filter_cons, ht, decide_True, if_true, countDebitByMonth]
      exact ih _
    · simp only [List.foldl_cons, List.filter_cons, ht, decide_False, countDebitByMonth]
      simp only [Bool.false_eq_true, if_false]
      exact ih _

/-- C19: `findMostDebitTransactionMonth` on a store returns what `findMostTransactionsMonth`
returns on the store that holds `getTransactionByType("debit")` of the first. -/
theorem findMostDebitTransactionMonth_eq (self : TransactionAnalyzer) :
    self.findMostDebitTransactionMonth =
      (TransactionAnalyzer.mk (self.getTransactionByType "debit")).findMostTransactionsMonth := by
  unfold findMostDebitTransactionMonth findMostTransactionsMonth getTransactionByType
  rw [foldl_countDebitByMonth_eq]

/-! ### Calendar order and time values -/

theorem dayFromYear_succ (y : Int) :
    dayFromYear (y + 1) = dayFromYear y + (if isLeapYear y = true then 366 else 365) := by
  unfold dayFromYear isLeapYear
  simp only [Bool.and_eq_true, Bool.or_eq_true, decide_eq_true_eq]
  split_ifs with h <;> omega

theorem dayFromYear_mono (y : Int) (n : Nat) : dayFromYear y ≤ dayFromYear (y + n) := by
  induction n with
  | zero => simp
  | succ n ih =>
    have h := dayFromYear_succ (y + n)
    have e : y + ((n + 1 : Nat) : Int) = y + n + 1 := by push_cast; ring
    rw [e, h]
    split_ifs <;> omega

theorem dayFromYear_next_le (y y' : Int) (h : y < y') :
    dayFromYear y + (if isLeapYear y = true then 366 else 365) ≤ dayFromYear y' := by
  obtain ⟨n, hn⟩ : ∃ n : Nat, y' = y + 1 + n := ⟨(y' - y - 1).toNat, by omega⟩
  rw [hn, ← dayFromYear_succ]
  exact dayFromYear_mono _ _

theorem dayWithinYear_bounds (leap : Bool) (m d : Nat) (hm : m < 12) (h1 : 1 ≤ d)
    (h2 : d ≤ daysInMonth leap m) :
    0 ≤ dayWithinYear leap m + (d : Int) - 1 ∧
    dayWithinYear leap m + (d : Int) - 1 < (if leap = true then 366 else 365) := by
  interval_cases m <;> cases leap <;> simp [dayWithinYear, daysInMonth] at h2 ⊢ <;> omega

theorem dayWithinYear_lt (leap : Bool) (m m' d d' : Nat) (hm' : m' < 12) (h : m < m')
    (h2 : d ≤ daysInMonth leap m) (h1 : 1 ≤ d') :
    dayWithinYear leap m + (d : Int) < dayWithinYear leap m' + (d' : Int) := by
  interval_cases m' <;> interval_cases m <;> cases leap <;>
    simp [dayWithinYear, daysInMonth] at h2 ⊢ <;> omega

theorem makeDay_of_lt (y : Int) (m d : Nat) (hm : m < 12) :
    makeDay y m d = dayFromYear y + dayWithinYear (isLeapYear y) m + (d : Int) - 1 := by
  unfold makeDay
  simp [Nat.div_eq_of_lt hm, Nat.mod_eq_of_lt hm]

theorem notAfter_eq_calendarNotAfter (a b : JSDate) (ha : isCalendarDay a = true)
    (hb : isCalendarDay b = true) : notAfter a b = calendarNotAfter a b := by
  cases a with
  | invalid => simp [isCalendarDay] at ha
  | ymd y m d =>
    cases b with
    | invalid => simp [isCalendarDay] at hb
    | ymd y' m' d' =>
      simp only [isCalendarDay, Bool.and_eq_true, decide_eq_true_eq] at ha hb
      obtain ⟨⟨hm, hd1⟩, hd2⟩ := ha
      obtain ⟨⟨hm', hd1'⟩, hd2'⟩ := hb
      have ba := dayWithinYear_bounds _ m d hm hd1 hd2
      have bb := dayWithinYear_bounds _ m' d' hm' hd1' hd2'
      simp only [notAfter, JSDate.getTime, calendarNotAfter, makeDay_of_lt _ _ _ hm,
        makeDay_of_lt _ _ _ hm', msPerDay]
      rcases lt_trichotomy y y' with hy | hy | hy
      · have := dayFromYear_next_le y y' hy
        have e : decide (y < y') = true := by simpa using hy
        rw [e, Bool.true_or, decide_eq_true_eq]
        omega
      · subst hy
        rcases lt_trichotomy m m' with hmm | hmm | hmm
        · have := dayWithinYear_lt (isLeapYear y) m m' d d' hm' hmm hd2 hd1'
          have e1 : decide (m < m') = true := by simpa using hmm
          simp only [e1, lt_self_iff_false, decide_False, decide_True, Bool.true_or,
            Bool.and_true, Bool.false_or, decide_eq_true_eq]
          omega
        · subst hmm
          simp only [lt_self_iff_false, decide_False, decide_True, Bool.true_and,
            Bool.false_or]
          rw [decide_eq_decide]
          omega
        · have := dayWithinYear_lt (isLeapYear y) m' m d' d hm hmm hd2' hd1
          have e1 : decide (m < m') = false := by simpa using Nat.le_of_lt hmm
          have e2 : decide (m = m') = false := by simpa using Nat.ne_of_gt hmm
          simp only [e1, e2, lt_self_iff_false, decide_False, decide_True, Bool.true_and,
            Bool.false_or, Bool.false_and, decide_eq_false_iff_not]
          omega
      · have := dayFromYear_next_le y' y hy
        have e1 : decide (y < y') = false := by simpa using le_of_lt hy
        have e2 : decide (y = y') = false := by simpa using ne_of_gt hy
        simp only [e1, e2, Bool.false_and, Bool.false_or, decide_eq_false_iff_not]
        omega

/-! ### Filter by date range -/

theorem inRange_eq (t startDate endDate : JSDate) :
    (jsGe t.getTime startDate.getTime && jsLe t.getTime endDate.getTime) =
      (notAfter startDate t && notAfter t endDate) := by
  unfold jsGe jsLe notAfter
  cases t.getTime <;> cases startDate.getTime <;> cases endDate.getTime <;> simp

theorem notAfter_trans (a b c : JSDate) (h1 : notAfter a b = true) (h2 : notAfter b c = true) :
    notAfter a c = true := by
  unfold notAfter at *
  cases ha : a.getTime <;> cases hb : b.getTime <;> cases hc : c.getTime <;>
    simp [ha, hb, hc] at h1 h2 ⊢
  omega

/-- C15: `getTransactionsInDateRange(startDate, endDate)` returns, in store order, exactly the
transactions whose date is not before `startDate` and not after `endDate`, both bounds
included: the result is a subsequence of the store, a transaction is in it if and only if it
is stored and its date lies in the range, and a stored transaction in the range occurs in it
as often as in the store. The result is empty whenever `startDate` is not before or equal to
`endDate`. For days of the calendar the order of the time values is the order of the
calendar. On the scenario store the range 2023-01-01 to 2023-01-31 gives the two
transactions of January in store order, and the reversed range gives nothing. -/
theorem getTransactionsInDateRange_spec :
    (∀ (self : TransactionAnalyzer) (startDate endDate : JSDate),
      (self.getTransactionsInDateRange startDate endDate).Sublist self.transactions ∧
      (∀ t, t ∈ self.getTransactionsInDateRange startDate endDate ↔
        t ∈ self.transactions ∧ notAfter startDate t.transaction_date = true ∧
          notAfter t.transaction_date endDate = true) ∧
      (∀ t : Transaction, notAfter startDate t.transaction_date = true →
        notAfter t.transaction_date endDate = true →
        (self.getTransactionsInDateRange startDate endDate).count t =
          self.transactions.count t) ∧
      (notAfter startDate endDate = false →
        self.getTransactionsInDateRange startDate endDate = [])) ∧
    (∀ a b : JSDate, isCalendarDay a = true → isCalendarDay b = true →
      notAfter a b = calendarNotAfter a b) ∧
    scenarioStore.getTransactionsInDateRange (JSDate.ymd 2023 0 1) (JSDate.ymd 2023 0 31) =
      [mkTransaction (JSDate.ymd 2023 0 15) 100 "debit",
       mkTransaction (JSDate.ymd 2023 0 20) 50 "credit"] ∧
    scenarioStore.getTransactionsInDateRange (JSDate.ymd 2023 0 31) (JSDate.ymd 2023 0 1) =
      [] := by
  refine ⟨?_, notAfter_eq_calendarNotAfter, by decide, by decide⟩
  intro self startDate endDate
  unfold getTransactionsInDateRange
  simp only [inRange_eq]
  refine ⟨List.filter_sublist _, ?_, ?_, ?_⟩
  · intro t
    simp [List.mem_filter]
  · intro t h1 h2
    rw [List.count_filter]
    simp [h1, h2]
  · intro h
    rw [List.filter_eq_nil_iff]
    intro t _ hc
    simp only [Bool.and_eq_true] at hc
    rw [notAfter_trans _ _ _ hc.1 hc.2] at h
    exact Bool.noConfusion h

/-- Witness of C15: 31 January 2023 is after 1 January 2023, so the range from the first to
the second is empty on the scenario store; and the two are days of the calendar, whose order
of time values is the order of the calendar. -/
theorem getTransactionsInDateRange_spec_witness :
    notAfter (JSDate.ymd 2023 0 31) (JSDate.ymd 2023 0 1) = false ∧
    scenarioStore.getTransactionsInDateRange (JSDate.ymd 2023 0 31) (JSDate.ymd 2023 0 1) =
      [] ∧
    isCalendarDay (JSDate.ymd 2023 0 1) = true ∧ isCalendarDay (JSDate.ymd 2023 0 31) = true ∧
    notAfter (JSDate.ymd 2023 0 1) (JSDate.ymd 2023 0 31) =
      calendarNotAfter (JSDate.ymd 2023 0 1) (JSDate.ymd 2023 0 31) :=
  ⟨by decide,
   (getTransactionsInDateRange_spec.1 scenarioStore _ _).2.2.2 (by decide),
   by decide, by decide,
   getTransactionsInDateRange_spec.2.1 _ _ (by decide) (by decide)⟩

/-! ### The month name is always found -/

/-- Outside the valid dates: for the year -13 the second piece of the split is 13, and index
12 is beyond the end of `monthNames`. -/
theorem monthNameOfKey_negative_year_undefined :
    monthKey (JSDate.ymd (-13) 4 1) = "-13-5" ∧
    monthNameOfKey (monthKey (JSDate.ymd (-13) 4 1)) = none := by
  decide

theorem jsParseInt_month (m : Nat) (hm : m < 12) :
    jsParseInt (some (String.mk (Nat.toDigits 10 (m + 1)))) = some (Int.ofNat (m + 1)) := by
  interval_cases m <;> decide

/-- For years that are not negative: on a non-empty store whose dates all satisfy `isValid`,
the key that wins in `findMostTransactionsMonth` is not the empty initial key, its second piece parses to a month
number from 1 to 12, the look-up at that number minus 1 is inside the table, and the method
returns one of the twelve entries of `monthNames`. -/
theorem findMostTransactionsMonth_in_table (self : TransactionAnalyzer)
    (hne : self.transactions ≠ [])
    (hvalid : ∀ t ∈ self.transactions, t.transaction_date.isValid = true) :
    (maxMonthLoop (self.transactions.foldl countByMonth [])).1 ≠ "" ∧
    (∃ (monthText : String) (month : Int),
      (jsSplit (maxMonthLoop (self.transactions.foldl countByMonth [])).1 '-')[1]? =
        some monthText ∧
      jsParseInt (some monthText) = some month ∧ 1 ≤ month ∧ month ≤ 12 ∧
      (month - 1).toNat < monthNames.length ∧
      self.findMostTransactionsMonth = monthNames[(month - 1).toNat]?) ∧
    monthNames.length = 12 ∧
    ∃ name ∈ monthNames, self.findMostTransactionsMonth = some name := by
  obtain ⟨i, t, y, m, d, _, hd, hm, hkey, _, _⟩ :=
    mostFrequentMonth_winner_key self.transactions hne hvalid
  have hres : self.findMostTransactionsMonth = monthNames[m]? := by
    show monthNameOfKey (maxMonthLoop (self.transactions.foldl countByMonth [])).1 = _
    rw [hkey, hd]
    exact monthNameOfKey_monthKey y m d hm
  have hlen : monthNames.length = 12 := rfl
  have hidx : ((Int.ofNat (m + 1) : Int) - 1).toNat = m := by
    simp
  refine ⟨?_, ?_, hlen, ?_⟩
  · rw [hkey, hd, monthKey_ymd]
    intro h
    have := congrArg String.data h
    simp at this
  · refine ⟨String.mk (Nat.toDigits 10 (m + 1)), Int.ofNat (m + 1), ?_,
      jsParseInt_month m hm, ?_, ?_, ?_, ?_⟩
    · rw [hkey, hd, jsSplit_monthKey]
      rfl
    · simp
    · have : (Int.ofNat (m + 1) : Int) = (m : Int) + 1 := rfl
      omega
    · rw [hidx, hlen]; exact hm
    · rw [hidx]; exact hres
  · have hlt : m < monthNames.length := by rw [hlen]; exact hm
    refine ⟨monthNames[m], List.getElem_mem _, ?_⟩
    rw [hres, List.getElem?_eq_getElem hlt]

/-- An instance of the look-up result for years that are not negative: the scenario store. -/
theorem findMostTransactionsMonth_in_table_witness :
    scenarioStore.transactions ≠ [] ∧
    (∀ t ∈ scenarioStore.transactions, t.transaction_date.isValid = true) ∧
    (maxMonthLoop (scenarioStore.transactions.foldl countByMonth [])).1 ≠ "" ∧
    ∃ name ∈ monthNames, scenarioStore.findMostTransactionsMonth = some name :=
  ⟨by decide, by decide,
   (findMostTransactionsMonth_in_table scenarioStore (by decide) (by decide)).1,
   (findMostTransactionsMonth_in_table scenarioStore (by decide) (by decide)).2.2.2⟩

/-! ### Time zones west of UTC, and negative years -/

theorem scenarioStoreIn_west :
    scenarioStoreIn (-300) =
      ⟨[mkTransaction (JSDate.ymd 2023 0 14) 100 "debit",
        mkTransaction (JSDate.ymd 2023 0 19) 50 "credit",
        mkTransaction (JSDate.ymd 2023 0 31) 200 "debit"]⟩ := by
  simp [scenarioStoreIn, newDate, previousDay, daysInMonth]

/-- C4, the code at the failing input: with the process five hours west of UTC the three
date texts of the scenario are seen by the getters as 14, 19 and 31 January 2023, so
`calculateTotalAmountByDate(2023, 1)` is 350, while the transactions written with year 2023
and month 1 sum to 150, the value the method gives at or east of UTC. In the same zone
`getTransactionsInDateRange`, which compares time values, given 2023-01-01 and 2023-01-31
returns the first two transactions only: it does not take the third for one of January. -/
theorem calculateTotalAmountByDate_west_of_utc :
    (scenarioStoreIn (-300)).transactions.map (fun t => t.transaction_date) =
      [JSDate.ymd 2023 0 14, JSDate.ymd 2023 0 19, JSDate.ymd 2023 0 31] ∧
    (scenarioStoreIn (-300)).calculateTotalAmountByDate (some 2023) (some 1) none = 350 ∧
    scenarioStoreIn 0 = scenarioStore ∧
    sumOfAmountsWhere (inYearMonth 2023 1) scenarioStore.transactions = 150 ∧
    (scenarioStoreIn 0).calculateTotalAmountByDate (some 2023) (some 1) none = 150 ∧
    (scenarioStoreIn (-300)).getTransactionsInDateRange
        (newDate (-300) (JSDate.ymd 2023 0 1)) (newDate (-300) (JSDate.ymd 2023 0 31)) =
      (scenarioStoreIn (-300)).transactions.take 2 := by
  have h0 : scenarioStoreIn 0 = scenarioStore := by
    simp [scenarioStoreIn, newDate, scenarioStore]
  refine ⟨?_, ?_, h0, ?_, ?_, ?_⟩
  · rw [scenarioStoreIn_west]
    rfl
  · rw [scenarioStoreIn_west]
    simp [calculateTotalAmountByDate, mkTransaction, JSDate.getFullYear, JSDate.getMonth,
      jsStrictEq, jsAdd, addAmount]
    norm_num
  · simp [sumOfAmountsWhere, inYearMonth, scenarioStore, mkTransaction]
    norm_num
  · rw [h0]
    simp [calculateTotalAmountByDate, scenarioStore, mkTransaction, JSDate.getFullYear,
      JSDate.getMonth, jsStrictEq, jsAdd, addAmount]
    norm_num
  · rw [scenarioStoreIn_west]
    decide

/-- C8, the code at the failing input: the store holds one transaction, dated 1 May of the
year -1, a day of the calendar; its only (year, month) group is that of May, yet
`findMostTransactionsMonth` returns the `monthNames` entry of January and not that of May.
The key is "-1-5", the split at the minus signs gives an empty piece, "1" and "5", and the
second piece, read as the month, is the digit of the year. -/
theorem findMostTransactionsMonth_negative_year_wrong_month :
    yearMinus1Store.transactions ≠ [] ∧
    (∀ t ∈ yearMinus1Store.transactions, isCalendarDay t.transaction_date = true) ∧
    (∀ t ∈ yearMinus1Store.transactions, t.transaction_date.getMonth = some 4) ∧
    (maxMonthLoop (yearMinus1Store.transactions.foldl countByMonth [])).1 = "-1-5" ∧
    jsSplit "-1-5" '-' = ["", "1", "5"] ∧
    yearMinus1Store.findMostTransactionsMonth = monthNames[0]? ∧
    yearMinus1Store.findMostTransactionsMonth = some "Январь" ∧
    monthNames[4]? = some "Май" ∧
    yearMinus1Store.findMostTransactionsMonth ≠ monthNames[4]? := by
  decide

/-- C20, the code at the failing input: the store holds one transaction, dated 1 May of the
year -13, a day of the calendar; the winning key is "-13-5", its second piece parses to 13,
index 12 is beyond the twelve entries of `monthNames`, and `findMostTransactionsMonth`
returns `undefined`. -/
theorem findMostTransactionsMonth_negative_year_out_of_table :
    yearMinus13Store.transactions ≠ [] ∧
    (∀ t ∈ yearMinus13Store.transactions, isCalendarDay t.transaction_date = true) ∧
    (maxMonthLoop (yearMinus13Store.transactions.foldl countByMonth [])).1 = "-13-5" ∧
    (jsSplit "-13-5" '-')[1]? = some "13" ∧
    jsParseInt (some "13") = some 13 ∧
    monthNames.length = 12 ∧
    monthNames[12]? = none ∧
    yearMinus13Store.findMostTransactionsMonth = none := by
  decide

end JsLab
